import Mathlib

/-!
# Verification of the offline-first sync engine (`src/services/syncService.ts`)

A shallow embedding of the synchronization engine of the repository:
the outbox queue (`sync_queue` table), the record store (`tasks` table),
the dispatcher `sync()`, the reconciler `updateSyncStatus`, the retry
policy `handleSyncError`, and the batch checksum `generateChecksum`.

Modelling conventions:

* JavaScript runtime values that can appear in a JSON payload or a DB
  column are modelled by `TsVal` (string, number, boolean, `Date`,
  `null`, `undefined`, other object).  JS truthiness is `jsTruthy`.
* `Date` values carry an integer timestamp; `Date.prototype.toISOString`
  is modelled by an injective rendering to `String` (`dateToIso`) — only
  the flow of the value matters to the properties proved here, never the
  concrete ISO format.
* `JSON.parse` on the queue `data` column is an explicit parameter
  `parse : String → Option Payload` of the dispatcher: a row whose
  payload throws in `JSON.parse` is a row with `parse row.data = none`.
* The network (`axios.post` in `processBatch`) is an oracle
  `net : Nat → NetResp` giving the outcome of the HTTP round trip for
  each batch index: either the request threw, or a reply whose
  `processed_items` field may or may not be a proper array.
* Each `new Date()` taken during a run is modelled by the single `now`
  of the run's `Ctx`; timestamps never influence control flow in the
  source.
* The sqlite layer: the two tables are lists of rows; `UPDATE ... WHERE`
  is a `map`, `DELETE ... WHERE` a `filter`, `db.get` a `find?`, and
  `SELECT * FROM sync_queue ORDER BY created_at ASC` a sort by the
  `created_at` column (tie order among equal keys is unspecified in
  SQL; the model uses insertion sort).  `db.run` failures are caught
  and only logged by the source, so the model's writes are total.
-/

namespace SyncSpec

/-- A JavaScript runtime value as it can appear in a JSON-shaped payload
or be bound as a sqlite parameter. -/
inductive TsVal where
  | str (s : String)
  | num (n : Int)
  | bool (b : Bool)
  | date (t : Int)
  | null
  | undef
  | obj
deriving DecidableEq

/-- JS truthiness of a `TsVal` (`if (v)`); `undefined` and `null` are
falsy, `""` and `0` are falsy, `Date` objects and other objects are
truthy. -/
def jsTruthy : TsVal → Bool
  | .str s => s ≠ ""
  | .num n => n ≠ 0
  | .bool b => b
  | .date _ => true
  | .null => false
  | .undef => false
  | .obj => true

/-- Stand-in for `new Date(v).toISOString()`: an injective rendering of
the value to a string.  The source only moves these strings around;
none of the verified properties depend on the ISO grammar. -/
def dateToIso : TsVal → String
  | .date t => "ISO:" ++ toString t
  | .str s => "ISOP:" ++ s
  | .num n => "ISO:" ++ toString n
  | _ => "Invalid Date"

/-- `s.startsWith(p)` (JS `String.prototype.startsWith`), computed on
the character sequences. -/
def strStartsWith (p s : String) : Bool := p.data.isPrefixOf s.data

/-- Lexicographic comparison of code-point sequences. -/
def lexLe : List Nat → List Nat → Bool
  | [], _ => true
  | _ :: _, [] => false
  | a :: as, b :: bs =>
      if a < b then true else if b < a then false else lexLe as bs

/-- The column comparison behind `ORDER BY created_at ASC`:
lexicographic on the text (sqlite's BINARY collation agrees with
code-point order on UTF-8, and on ISO timestamps it is chronological
order). -/
def strLeB (a b : String) : Bool :=
  lexLe (a.data.map Char.toNat) (b.data.map Char.toNat)

/-- Strict version of `strLeB` (for a total order, `a < b ↔ ¬ b ≤ a`). -/
def strLtB (a b : String) : Prop := strLeB b a = false

instance (a b : String) : Decidable (strLtB a b) :=
  inferInstanceAs (Decidable (strLeB b a = false))

/-- `x || d` for an optional string `x` (JS `||` with string truthiness). -/
def jsOrStr (x : Option String) (d : String) : String :=
  match x with
  | some s => if s = "" then d else s
  | none => d

/-- A JSON object payload (`Partial<Task>` at runtime), as the ordered
key/value entries `Object.entries` iterates. -/
abbrev Payload := List (String × TsVal)

/-- Property access `o.k` on a JS object: the value at the first entry
with key `k`, `undefined` (here `none`) when absent. -/
def objGet (m : Payload) (k : String) : Option TsVal :=
  (m.find? (fun p => p.1 = k)).map (fun p => p.2)

/-- Property assignment `o[k] = v` on a JS object: overwrites in place
when the key exists (keeping its position), appends otherwise. -/
def objSet (m : Payload) (k : String) (v : TsVal) : Payload :=
  if m.any (fun p => p.1 = k) then
    m.map (fun p => if p.1 = k then (k, v) else p)
  else
    m ++ [(k, v)]

/-- A row of the `tasks` table.  `id` is the primary key used in `WHERE`
clauses; every other column holds a runtime value. -/
structure TaskRow where
  id : String
  title : TsVal
  description : TsVal
  completed : TsVal
  is_deleted : TsVal
  created_at : TsVal
  updated_at : TsVal
  sync_status : TsVal
  server_id : TsVal
  last_synced_at : TsVal
deriving DecidableEq

/-- A raw row of the `sync_queue` table (`SyncQueueDbItem` in the
source): the payload is still the serialized string. -/
structure SyncQueueDbItem where
  id : String
  task_id : String
  operation : String
  data : String
  created_at : String
  retry_count : Nat
  error_message : Option String
deriving DecidableEq

/-- A parsed outbox entry (`SyncQueueItem` in the source). -/
structure SyncQueueItem where
  id : String
  task_id : String
  operation : String
  data : Payload
  created_at : String
  retry_count : Nat
  error_message : Option String
deriving DecidableEq

/-- The persistent state the engine reads and writes: the two tables. -/
structure DbState where
  tasks : List TaskRow
  sync_queue : List SyncQueueDbItem
deriving DecidableEq

/-- One entry of `SyncResult.errors`. -/
structure SyncError where
  task_id : String
  operation : String
  error : String
  timestamp : Int
deriving DecidableEq

/-- The aggregate outcome of one `sync()` run. -/
structure SyncResult where
  success : Bool
  synced_items : Nat
  failed_items : Nat
  errors : List SyncError
deriving DecidableEq

/-- One element of the server response's `processed_items` array. -/
structure ProcessedItem where
  client_id : String
  server_id : Option String
  status : String
  resolved_data : Option Payload
  error : Option String
deriving DecidableEq

/-- Configuration of a run: `SYNC_BATCH_SIZE` (default 50),
`SYNC_RETRY_ATTEMPTS` (default 3), and the run's clock. -/
structure Ctx where
  batchSize : Nat
  maxRetries : Nat
  now : Int
deriving DecidableEq

/-! ## `updateSyncStatus`: reconciliation writes

`updateSyncStatus(queueItemId, taskId, status, serverId?, resolvedData?)`
builds a list of `SET` clauses, runs a single `UPDATE tasks ... WHERE
id = ?`, and then unconditionally runs `DELETE FROM sync_queue WHERE
id = ?`.  A clause is modelled as the pair of its SQL text
(`"col = ?"`) and its bound parameter. -/

/-- The key allow-list checked against `Object.entries(resolvedData)`
(note that the source list includes `'id'`). -/
def allowedResolvedKeys : List String :=
  ["title", "description", "completed", "is_deleted", "updated_at", "server_id", "id"]

/-- Conversion of an allow-listed resolved value to a DB parameter:
`Date → toISOString`, `boolean → 1/0`, strings, numbers and `null` pass
through, anything else is silently skipped (`none`). -/
def convertResolvedValue : TsVal → Option TsVal
  | .date t => some (.str (dateToIso (.date t)))
  | .bool b => some (.num (if b then 1 else 0))
  | .str s => some (.str s)
  | .num n => some (.num n)
  | .null => some .null
  | .undef => none
  | .obj => none

/-- First truthy value of a JS `||` chain, `none` when every link is
falsy (so that `if (x || y || z)` is an `isSome` test). -/
def firstTruthy : List (Option TsVal) → Option TsVal
  | [] => none
  | none :: rest => firstTruthy rest
  | some v :: rest => if jsTruthy v then some v else firstTruthy rest

/-- One step of the `Object.entries(resolvedData)` loop: a defined
value under an allow-listed key is converted and stored, everything
else is skipped. -/
def resolvedEntriesStep (acc : Payload) (kv : String × TsVal) : Payload :=
  if kv.2 ≠ .undef ∧ kv.1 ∈ allowedResolvedKeys then
    match convertResolvedValue kv.2 with
    | some v => objSet acc kv.1 v
    | none => acc
  else acc

/-- The object accumulated by the `Object.entries(resolvedData)` loop. -/
def filteredResolved (rd : Payload) : Payload :=
  rd.foldl resolvedEntriesStep []

/-- The `updated_at` value forced into every resolved-data application:
`resolvedData.updated_at ? new Date(...).toISOString() :
now.toISOString()`. -/
def forcedUpdatedAt (rd : Payload) (now : Int) : String :=
  match objGet rd "updated_at" with
  | some v => if jsTruthy v then dateToIso v else dateToIso (.date now)
  | none => dateToIso (.date now)

/-- The `updatesFromResolved` object: the filtered/converted entries of
`resolvedData`, then the forced `updated_at`, then `server_id` from
`serverId || resolvedData.server_id || resolvedData.id` when that chain
is truthy. -/
def buildUpdatesFromResolved (rd : Payload) (serverId : Option String) (now : Int) :
    Payload :=
  let step2 := objSet (filteredResolved rd) "updated_at" (.str (forcedUpdatedAt rd now))
  match firstTruthy [serverId.map .str, objGet rd "server_id", objGet rd "id"] with
  | some v => objSet step2 "server_id" v
  | none => step2

/-- A `SET` clause: its SQL text `"col = ?"` paired with the bound
parameter. -/
abbrev Clause := String × TsVal

/-- The loop pushing the `updatesFromResolved` entries onto the clause
list: a key already covered by a clause (`startsWith(key + ' =')`) or
equal to `'id'` is not pushed. -/
def pushResolvedClauses (cs : List Clause) (upd : Payload) : List Clause :=
  upd.foldl
    (fun acc kv =>
      if (¬ acc.any (fun c => strStartsWith (kv.1 ++ " =") c.1)) ∧ kv.1 ≠ "id" then
        acc ++ [(kv.1 ++ " = ?", kv.2)]
      else acc) cs

/-- The `SET` clause list built by `updateSyncStatus`. -/
def updateSyncStatusClauses (status : String) (serverId : Option String)
    (resolvedData : Option Payload) (now : Int) : List Clause :=
  let cs : List Clause := [("sync_status = ?", .str status)]
  let cs := if status = "synced" then
      cs ++ [("last_synced_at = ?", .str (dateToIso (.date now)))]
    else cs
  match resolvedData, decide (status = "synced") with
  | some rd, true => pushResolvedClauses cs (buildUpdatesFromResolved rd serverId now)
  | _, _ =>
      match serverId with
      | some sid =>
          if sid ≠ "" ∧ ¬ cs.any (fun c => strStartsWith "server_id =" c.1) then
            cs ++ [("server_id = ?", .str sid)]
          else cs
      | none => cs

/-- Application of one `SET` clause to a task row. -/
def applyClause (row : TaskRow) (c : Clause) : TaskRow :=
  if c.1 = "sync_status = ?" then { row with sync_status := c.2 }
  else if c.1 = "last_synced_at = ?" then { row with last_synced_at := c.2 }
  else if c.1 = "title = ?" then { row with title := c.2 }
  else if c.1 = "description = ?" then { row with description := c.2 }
  else if c.1 = "completed = ?" then { row with completed := c.2 }
  else if c.1 = "is_deleted = ?" then { row with is_deleted := c.2 }
  else if c.1 = "updated_at = ?" then { row with updated_at := c.2 }
  else if c.1 = "server_id = ?" then { row with server_id := c.2 }
  else row

/-- `updateSyncStatus`: one `UPDATE tasks ... WHERE id = taskId`
followed by the unconditional `DELETE FROM sync_queue WHERE id =
queueItemId`. -/
def updateSyncStatus (st : DbState) (queueItemId taskId status : String)
    (serverId : Option String) (resolvedData : Option Payload) (now : Int) : DbState :=
  let cs := updateSyncStatusClauses status serverId resolvedData now
  { tasks := st.tasks.map (fun r => if r.id = taskId then cs.foldl applyClause r else r),
    sync_queue := st.sync_queue.filter (fun q => q.id ≠ queueItemId) }

/-- `updateTaskSyncStatusBatch`: `UPDATE tasks SET sync_status = ?
WHERE id IN (...)` (no-op on an empty id list). -/
def updateTaskSyncStatusBatch (st : DbState) (taskIds : List String) (status : String) :
    DbState :=
  if taskIds = [] then st
  else
    { st with tasks := st.tasks.map (fun r =>
        if r.id ∈ taskIds then { r with sync_status := .str status } else r) }

/-! ## `handleSyncError`: the retry policy -/

/-- `handleSyncError(item, error, result)`.  Returns the new DB state
and the updated running result.  `errMsg` is `error.message`. -/
def handleSyncError (st : DbState) (res : SyncResult) (item : SyncQueueItem)
    (errMsg : String) (maxRetries : Nat) (now : Int) : DbState × SyncResult :=
  let newRetryCount := item.retry_count + 1
  let errorMessage := if errMsg = "" then "Unknown error" else errMsg
  if maxRetries < newRetryCount then
    let st1 := updateSyncStatus st item.id item.task_id "failed" none none now
    (st1,
     { res with
        failed_items := res.failed_items + 1,
        errors := res.errors ++
          [⟨item.task_id, item.operation, "Permanent failure: " ++ errorMessage, now⟩] })
  else
    let current : Option TsVal :=
      (st.tasks.find? (fun r => r.id = item.task_id)).map (fun r => r.sync_status)
    let st1 := if current ≠ some (.str "failed") then
        updateTaskSyncStatusBatch st [item.task_id] "error"
      else st
    let st2 := { st1 with sync_queue := st1.sync_queue.map (fun q =>
        if q.id = item.id then
          { q with retry_count := newRetryCount, error_message := some errorMessage }
        else q) }
    (st2,
     { res with
        errors := res.errors ++
          [⟨item.task_id, item.operation,
            "Temp failure (attempt " ++ toString newRetryCount ++ "): " ++ errorMessage,
            now⟩] })

/-! ## The dispatcher `sync()` -/

/-- `mapRowToSyncQueueItem`: rejects a row with a falsy essential field,
then parses the payload (`JSON.parse`); a throwing parse also yields
`null` (`none`).  `parse` is the `JSON.parse` oracle. -/
def mapRowToSyncQueueItem (parse : String → Option Payload) (row : SyncQueueDbItem) :
    Option SyncQueueItem :=
  if row.id = "" ∨ row.task_id = "" ∨ row.operation = "" ∨ row.data = "" ∨
      row.created_at = "" then
    none
  else
    match parse row.data with
    | none => none
    | some d =>
        some ⟨row.id, row.task_id, row.operation, d, row.created_at,
              row.retry_count, row.error_message⟩

/-- The ordering used by `SELECT * FROM sync_queue ORDER BY created_at
ASC` (ISO timestamp strings compare lexicographically). -/
def queueLe (a b : SyncQueueDbItem) : Prop :=
  strLeB a.created_at b.created_at = true

instance : DecidableRel queueLe := fun a b =>
  inferInstanceAs (Decidable (strLeB a.created_at b.created_at = true))

/-- The same dispatch order on parsed outbox entries. -/
def itemLe (a b : SyncQueueItem) : Prop :=
  strLeB a.created_at b.created_at = true

/-- `SELECT * FROM sync_queue ORDER BY created_at ASC`: a sort of the
table by `created_at` (the relative order of rows with equal keys is
unspecified in SQL; the model commits to insertion sort's choice). -/
def loadQueue (q : List SyncQueueDbItem) : List SyncQueueDbItem :=
  List.insertionSort queueLe q

/-- Fuelled splitting of the working set into consecutive slices
`queueItems.slice(i, i + batchSize)`; the fuel is always instantiated
with the list length. -/
def chunksF (bs : Nat) : Nat → List α → List (List α)
  | _, [] => []
  | 0, _ :: _ => []
  | fuel + 1, a :: rest =>
      (a :: rest.take (bs - 1)) :: chunksF bs fuel (rest.drop (bs - 1))

/-- The batches of the run: consecutive slices of size `bs` of the
working set, in order (`for (let i = 0; i < n; i += batchSize)`; the
source loop diverges for `batchSize = 0`, so `1 ≤ bs` is assumed by the
theorems that depend on slicing). -/
def chunks (bs : Nat) (l : List α) : List (List α) :=
  chunksF bs l.length l

/-- `JSON.stringify({op: i.operation, tid: i.task_id})` for one checksum
entry (quote escaping inside ids is not modelled; ids are plain). -/
def checksumEntryString (it : SyncQueueItem) : String :=
  "\x7b\"op\":\"" ++ it.operation ++ "\",\"tid\":\"" ++ it.task_id ++ "\"\x7d"

/-- Wrap an integer to a signed 32-bit value (`| 0` in JS). -/
def wrap32 (x : Int) : Int := (x + 2 ^ 31) % 2 ^ 32 - 2 ^ 31

/-- The rolling hash `hash = ((hash << 5) - hash + c) | 0` over the
code units of the stringified op/tid pairs. -/
def checksumHash (s : String) : Int :=
  s.toList.foldl (fun h c => wrap32 (wrap32 (h * 32) - h + (c.toNat : Int))) 0

/-- `generateChecksum`: `"<count>-<firstId>-<lastId>-<hash>"`, or
`"empty"` for an empty batch. -/
def generateChecksum (items : List SyncQueueItem) : String :=
  if items.isEmpty then "empty"
  else
    let firstId := jsOrStr ((items.head?).map (fun it => it.id)) "none"
    let lastId := jsOrStr ((items.getLast?).map (fun it => it.id)) "none"
    let dataString := "[" ++ String.intercalate "," (items.map checksumEntryString) ++ "]"
    toString items.length ++ "-" ++ firstId ++ "-" ++ lastId ++ "-" ++
      toString (checksumHash dataString)

/-- Outcome of the HTTP round trip of one batch: the `axios.post` call
threw (network error, timeout, non-2xx), or it returned a body whose
`processed_items` is either a proper array or not an array at all. -/
inductive NetResp where
  | netThrow (msg : String)
  | netReply (processedOpt : Option (List ProcessedItem))
deriving DecidableEq

/-- `processBatch`: validates the reply (`Invalid batch response` when
`processed_items` is not an array) and wraps every failure in
`Batch processing failed: ...`, which the batch loop catches. -/
def processBatch (resp : NetResp) : Except String (List ProcessedItem) :=
  match resp with
  | .netThrow msg => .error ("Batch processing failed: " ++ msg)
  | .netReply none => .error ("Batch processing failed: " ++ "Invalid batch response")
  | .netReply (some ps) => .ok ps

/-- `findIndex` + `splice(idx, 1)`: removes the first element satisfying
the predicate, returning it and the remainder in order. -/
def extractFirst (p : α → Bool) : List α → Option (α × List α)
  | [] => none
  | a :: as =>
      if p a then some (a, as)
      else (extractFirst p as).map (fun x => (x.1, a :: x.2))

/-- `processed.error || 'Unknown server error'`. -/
def serverErrMsg (e : Option String) : String := jsOrStr e "Unknown server error"

/-- One step of the response-matching loop: match the processed item to
the first not-yet-consumed local item by `task_id = client_id` (an
unmatched `client_id` is skipped), then reconcile: `success` and
`conflict` both apply `updateSyncStatus .. 'synced'` and count a synced
item (`conflict` also records an advisory error), anything else goes to
the retry policy. -/
def reconcileProcessed (ctx : Ctx) (acc : DbState × SyncResult × List SyncQueueItem)
    (p : ProcessedItem) : DbState × SyncResult × List SyncQueueItem :=
  let (st, res, localBatch) := acc
  match extractFirst (fun item => item.task_id = p.client_id) localBatch with
  | none => (st, res, localBatch)
  | some (originalItem, rest) =>
      if p.status = "success" then
        (updateSyncStatus st originalItem.id originalItem.task_id "synced"
           p.server_id p.resolved_data ctx.now,
         { res with synced_items := res.synced_items + 1 }, rest)
      else if p.status = "conflict" then
        (updateSyncStatus st originalItem.id originalItem.task_id "synced"
           p.server_id p.resolved_data ctx.now,
         { res with
            synced_items := res.synced_items + 1,
            errors := res.errors ++
              [⟨originalItem.task_id, originalItem.operation,
                "Conflict resolved (LWW)", ctx.now⟩] }, rest)
      else
        let out := handleSyncError st res originalItem (serverErrMsg p.error)
          ctx.maxRetries ctx.now
        (out.1, out.2, rest)

/-- Per-item handling in the batch-level `catch`: re-read the record's
status, demote `in-progress` to `error`, then apply the retry policy
with the batch error as cause. -/
def processFailedBatchItem (ctx : Ctx) (acc : DbState × SyncResult)
    (item : SyncQueueItem) (msg : String) : DbState × SyncResult :=
  let (st, res) := acc
  let current : Option TsVal :=
    (st.tasks.find? (fun r => r.id = item.task_id)).map (fun r => r.sync_status)
  let st1 := if current = some (.str "in-progress") then
      updateTaskSyncStatusBatch st [item.task_id] "error"
    else st
  handleSyncError st1 res item msg ctx.maxRetries ctx.now

/-- Processing of one batch: mark every implicated record
`in-progress`, perform the round trip, then either reconcile the
structured response (unanswered local items are retry failures with
cause `No response item received`, and force `success = false`), or —
on a missing `processed_items` or a thrown request — force
`success = false` and hand every batch item to the retry policy. -/
def runBatch (ctx : Ctx) (net1 : NetResp) (st : DbState) (res : SyncResult)
    (batch : List SyncQueueItem) : DbState × SyncResult :=
  let st := updateTaskSyncStatusBatch st (batch.map (fun it => it.task_id)) "in-progress"
  match processBatch net1 with
  | .ok processed =>
      let out := processed.foldl (reconcileProcessed ctx) (st, res, batch)
      let (st1, res1, leftover) := out
      if leftover = [] then (st1, res1)
      else
        leftover.foldl
          (fun acc item =>
            handleSyncError acc.1 acc.2 item "No response item received"
              ctx.maxRetries ctx.now)
          (st1, { res1 with success := false })
  | .error msg =>
      batch.foldl
        (fun acc item => processFailedBatchItem ctx acc item msg)
        (st, { res with success := false })

/-- The batch loop: every batch is processed in order, each with its own
round-trip outcome, regardless of the outcome of earlier batches. -/
def runBatches (ctx : Ctx) (net : Nat → NetResp) :
    Nat → DbState → SyncResult → List (List SyncQueueItem) → DbState × SyncResult
  | _, st, res, [] => (st, res)
  | k, st, res, b :: rest =>
      let out := runBatch ctx (net k) st res b
      runBatches ctx net (k + 1) out.1 out.2 rest

/-- `sync()`: load the queue ordered by `created_at`, drop rows whose
payload fails to parse, return immediately when nothing (or nothing
parseable) is pending, otherwise drain the batches and finally force
`success = false` whenever `failed_items > 0`. -/
def sync (ctx : Ctx) (parse : String → Option Payload) (net : Nat → NetResp)
    (st : DbState) : DbState × SyncResult :=
  let res0 : SyncResult := ⟨true, 0, 0, []⟩
  let queueRows := loadQueue st.sync_queue
  if queueRows = [] then (st, res0)
  else
    let queueItems := queueRows.filterMap (mapRowToSyncQueueItem parse)
    if queueItems = [] then (st, res0)
    else
      let out := runBatches ctx net 0 st res0 (chunks ctx.batchSize queueItems)
      (out.1, if 0 < out.2.failed_items then { out.2 with success := false } else out.2)

/-! ## Derived observables used by theorem statements -/

/-- The parameter bound by the last `SET` clause of the given column
text, if any: with simultaneous-update SQL semantics and distinct
column names this is the value the `UPDATE` writes. -/
def lastVal (cs : List Clause) (name : String) : Option TsVal :=
  (cs.filterMap (fun c => if c.1 = name then some c.2 else none)).getLast?

/-- The batch items left unanswered after matching a response: each
processed item consumes the first still-unconsumed batch item with
`task_id = client_id`. -/
def consumeMatches (batch : List SyncQueueItem) (ps : List ProcessedItem) :
    List SyncQueueItem :=
  ps.foldl
    (fun lb p =>
      match extractFirst (fun item => item.task_id = p.client_id) lb with
      | none => lb
      | some x => x.2) batch

/-- Number of reconciliations counted as synced when matching a
response against a batch (status `success` or `conflict` of a matched
item). -/
def syncedDelta : List ProcessedItem → List SyncQueueItem → Nat
  | [], _ => 0
  | p :: ps, lb =>
      match extractFirst (fun item => item.task_id = p.client_id) lb with
      | none => syncedDelta ps lb
      | some x =>
          (if p.status = "success" ∨ p.status = "conflict" then 1 else 0) +
            syncedDelta ps x.2

/-- Number of permanent failures produced by handing one item list to
the retry policy (an item fails permanently when its incremented retry
count exceeds `mr`). -/
def permFailCount (items : List SyncQueueItem) (mr : Nat) : Nat :=
  (items.filter (fun it => mr < it.retry_count + 1)).length

/-- Number of matched response items routed to the retry policy that
fail permanently. -/
def matchedFailDelta (mr : Nat) : List ProcessedItem → List SyncQueueItem → Nat
  | [], _ => 0
  | p :: ps, lb =>
      match extractFirst (fun item => item.task_id = p.client_id) lb with
      | none => matchedFailDelta mr ps lb
      | some x =>
          (if p.status = "success" ∨ p.status = "conflict" then 0
           else if mr < x.1.retry_count + 1 then 1 else 0) +
            matchedFailDelta mr ps x.2

/-- The one `errors` entry the retry policy appends for a failed item:
a permanent-failure entry when the incremented retry count exceeds
`mr`, a temporary-failure entry otherwise. -/
def retryErrorEntry (item : SyncQueueItem) (msg : String) (mr : Nat) (now : Int) :
    SyncError :=
  let m := if msg = "" then "Unknown error" else msg
  if mr < item.retry_count + 1 then
    ⟨item.task_id, item.operation, "Permanent failure: " ++ m, now⟩
  else
    ⟨item.task_id, item.operation,
      "Temp failure (attempt " ++ toString (item.retry_count + 1) ++ "): " ++ m, now⟩

/-- Whether one batch ends in a batch-level failure: the round trip
threw, the reply's `processed_items` was not an array, or the response
left some batch item unanswered.  These are exactly the events on which
the source forces `success = false` for the run. -/
def batchLevelFailure (batch : List SyncQueueItem) (resp : NetResp) : Bool :=
  match resp with
  | .netThrow _ => true
  | .netReply none => true
  | .netReply (some ps) => ¬ consumeMatches batch ps = []

/-- Total increment of `synced_items` contributed by one batch. -/
def batchSyncedDelta (batch : List SyncQueueItem) (resp : NetResp) : Nat :=
  match resp with
  | .netThrow _ => 0
  | .netReply none => 0
  | .netReply (some ps) => syncedDelta ps batch

/-- Total increment of `failed_items` contributed by one batch. -/
def batchFailedDelta (batch : List SyncQueueItem) (resp : NetResp) (mr : Nat) : Nat :=
  match resp with
  | .netThrow _ => permFailCount batch mr
  | .netReply none => permFailCount batch mr
  | .netReply (some ps) =>
      matchedFailDelta mr ps batch + permFailCount (consumeMatches batch ps) mr

/-- The keys of a payload, in entry order. -/
def keysOf (m : Payload) : List String := m.map Prod.fst

/-- All values stored under a key, in entry order (a well-formed JS
object has at most one). -/
def entriesAt (m : Payload) (k : String) : List TsVal :=
  m.filterMap (fun kv => if kv.1 = k then some kv.2 else none)

/-- The two clauses every `'synced'` update starts from. -/
def baseSyncedClauses (now : Int) : List Clause :=
  [("sync_status = ?", .str "synced"),
   ("last_synced_at = ?", .str (dateToIso (.date now)))]

/-- The clause pushed for one `updatesFromResolved` entry. -/
def mkResolvedClause (kv : String × TsVal) : Clause := (kv.1 ++ " = ?", kv.2)

/-- The column-clause texts `updateSyncStatus` can ever emit. -/
def allowedClauseNames : List String :=
  ["sync_status = ?", "last_synced_at = ?", "title = ?", "description = ?",
   "completed = ?", "is_deleted = ?", "updated_at = ?", "server_id = ?"]

/-- Sum of the per-batch `synced_items` contributions of a run,
starting at batch index `k`. -/
def batchesSyncedSum (net : Nat → NetResp) : Nat → List (List SyncQueueItem) → Nat
  | _, [] => 0
  | k, b :: rest => batchSyncedDelta b (net k) + batchesSyncedSum net (k + 1) rest

/-- Sum of the per-batch `failed_items` contributions of a run. -/
def batchesFailedSum (net : Nat → NetResp) (mr : Nat) :
    Nat → List (List SyncQueueItem) → Nat
  | _, [] => 0
  | k, b :: rest =>
      batchFailedDelta b (net k) mr + batchesFailedSum net mr (k + 1) rest

/-- Whether any batch of the run ends in a batch-level failure. -/
def anyBatchFailure (net : Nat → NetResp) : Nat → List (List SyncQueueItem) → Bool
  | _, [] => false
  | k, b :: rest => batchLevelFailure b (net k) || anyBatchFailure net (k + 1) rest

/-! ## Concrete fixtures for witnesses, counterexamples and scenarios -/

/-- A pending record as created by the CRUD layer. -/
def fixTask : TaskRow :=
  ⟨"t1", .str "Task 1", .null, .num 0, .num 0,
   .str "2024-01-01T00:00:00.000Z", .str "2024-01-01T00:00:00.000Z",
   .str "pending", .null, .null⟩

/-- The outbox row of `fixTask`'s create. -/
def fixRow : SyncQueueDbItem :=
  ⟨"q1", "t1", "create", "\x7b\x7d", "2024-01-01T00:00:01.000Z", 0, none⟩

/-- A one-record, one-entry database. -/
def fixDb : DbState := ⟨[fixTask], [fixRow]⟩

/-- Default configuration: batch size 50, three retries. -/
def fixCtx : Ctx := ⟨50, 3, 0⟩

/-- A `JSON.parse` oracle on which only the payload `"{}"` parses. -/
def parseEmptyObj : String → Option Payload :=
  fun s => if s = "\x7b\x7d" then some [] else none

/-- A network that throws on every batch (offline). -/
def netDown : Nat → NetResp := fun _ => .netThrow "Network error"

/-- `fixRow` as the parsed queue item, at a chosen retry count. -/
def fixItem (rc : Nat) : SyncQueueItem :=
  ⟨"q1", "t1", "create", [], "2024-01-01T00:00:01.000Z", rc, none⟩

/-- One offline sync cycle on the fixture configuration. -/
def failCycle (st : DbState) : DbState × SyncResult :=
  sync fixCtx parseEmptyObj netDown st

/-- State and result after the first offline cycle on `fixDb`. -/
def c2s1 : DbState × SyncResult := failCycle fixDb

/-- After the second consecutive offline cycle. -/
def c2s2 : DbState × SyncResult := failCycle c2s1.1

/-- After the third consecutive offline cycle. -/
def c2s3 : DbState × SyncResult := failCycle c2s2.1

/-- After the fourth consecutive offline cycle. -/
def c2s4 : DbState × SyncResult := failCycle c2s3.1

/-- A database whose record is already quarantined (`failed`). -/
def fixDbFailed : DbState :=
  ⟨[{ fixTask with sync_status := .str "failed" }], [fixRow]⟩

/-- An outbox row whose payload does not deserialize (`JSON.parse`
throws on `"notjson"`). -/
def fixRowBad : SyncQueueDbItem :=
  ⟨"q2", "t1", "create", "notjson", "2024-01-01T00:00:02.000Z", 0, none⟩

/-- A second, strictly later outbox row with a parseable payload. -/
def fixRow2 : SyncQueueDbItem :=
  ⟨"q3", "t2", "update", "\x7b\x7d", "2024-01-02T00:00:00.000Z", 0, none⟩

/-! ## Helper lemmas -/

theorem updateTaskSyncStatusBatch_sync_queue (st : DbState) (ids : List String)
    (s : String) : (updateTaskSyncStatusBatch st ids s).sync_queue = st.sync_queue := by
  unfold updateTaskSyncStatusBatch
  split <;> rfl

theorem updateTaskSyncStatusBatch_single (st : DbState) (tid : String) (s : String) :
    (updateTaskSyncStatusBatch st [tid] s).tasks =
      st.tasks.map (fun r => if r.id = tid then { r with sync_status := .str s } else r) := by
  unfold updateTaskSyncStatusBatch
  simp

theorem updateSyncStatusClauses_failed_none (now : Int) :
    updateSyncStatusClauses "failed" none none now = [("sync_status = ?", .str "failed")] :=
  rfl

theorem foldl_applyClause_single_status (r : TaskRow) (s : String) :
    List.foldl applyClause r [("sync_status = ?", .str s)] =
      { r with sync_status := .str s } :=
  rfl

/-- The permanent-failure branch of `handleSyncError`, fully described:
it marks the record `failed` and deletes the outbox entry. -/
theorem handleSyncError_perm (st : DbState) (res : SyncResult) (item : SyncQueueItem)
    (msg : String) (mr : Nat) (now : Int) (h : mr < item.retry_count + 1) :
    handleSyncError st res item msg mr now =
      ({ tasks := st.tasks.map (fun r =>
            if r.id = item.task_id then { r with sync_status := .str "failed" } else r),
         sync_queue := st.sync_queue.filter (fun q => q.id ≠ item.id) },
       { res with
          failed_items := res.failed_items + 1,
          errors := res.errors ++
            [⟨item.task_id, item.operation,
              "Permanent failure: " ++ (if msg = "" then "Unknown error" else msg),
              now⟩] }) := by
  unfold handleSyncError updateSyncStatus
  rw [if_pos h]
  rw [updateSyncStatusClauses_failed_none]
  rfl

/-- The temporary-failure branch of `handleSyncError`, fully described:
the record is demoted to `error` unless it is already `failed`, and the
outbox entry is updated in place. -/
theorem handleSyncError_temp (st : DbState) (res : SyncResult) (item : SyncQueueItem)
    (msg : String) (mr : Nat) (now : Int) (h : item.retry_count + 1 ≤ mr) :
    handleSyncError st res item msg mr now =
      (let st1 :=
        if ((st.tasks.find? (fun r => r.id = item.task_id)).map
              (fun r => r.sync_status)) ≠ some (.str "failed") then
          updateTaskSyncStatusBatch st [item.task_id] "error"
        else st
       { tasks := st1.tasks,
         sync_queue := st1.sync_queue.map (fun q =>
           if q.id = item.id then
             { q with retry_count := item.retry_count + 1,
                      error_message := some (if msg = "" then "Unknown error" else msg) }
           else q) },
       { res with
          errors := res.errors ++
            [⟨item.task_id, item.operation,
              "Temp failure (attempt " ++ toString (item.retry_count + 1) ++ "): " ++
                (if msg = "" then "Unknown error" else msg),
              now⟩] }) := by
  unfold handleSyncError
  rw [if_neg (by omega)]

/-! ## Clause machinery: lemmas on `objSet` and the clause builders -/

theorem filterMap_ext {α β : Type} {f g : α → Option β} :
    ∀ (l : List α), (∀ a ∈ l, f a = g a) → l.filterMap f = l.filterMap g
  | [], _ => rfl
  | a :: l, h => by
      rw [List.filterMap_cons, List.filterMap_cons, h a (by simp),
        filterMap_ext l (fun x hx => h x (by simp [hx]))]

theorem keysOf_objSet (m : Payload) (k : String) (v : TsVal) :
    keysOf (objSet m k v) =
      if m.any (fun p => p.1 = k) then keysOf m else keysOf m ++ [k] := by
  unfold objSet keysOf
  split
  · rw [List.map_map]
    apply List.map_congr_left
    intro p _
    by_cases h : p.1 = k <;> simp [h]
  · simp

theorem keysOf_objSet_nodup (m : Payload) (k : String) (v : TsVal)
    (h : (keysOf m).Nodup) : (keysOf (objSet m k v)).Nodup := by
  rw [keysOf_objSet]
  split
  · exact h
  · rename_i hany
    have hk : k ∉ keysOf m := by
      intro hmem
      obtain ⟨p, hp, he⟩ := List.mem_map.mp hmem
      exact hany (List.any_eq_true.mpr ⟨p, hp, by simp [he]⟩)
    simp [List.nodup_append, h, hk]

theorem keysOf_objSet_sub (m : Payload) (k : String) (v : TsVal) :
    ∀ x ∈ keysOf (objSet m k v), x ∈ keysOf m ∨ x = k := by
  rw [keysOf_objSet]
  split
  · exact fun x hx => Or.inl hx
  · intro x hx
    rcases List.mem_append.mp hx with h | h
    · exact Or.inl h
    · exact Or.inr (by simpa using h)

theorem entriesAt_nil_of_not_mem (m : Payload) (k : String)
    (h : k ∉ keysOf m) : entriesAt m k = [] := by
  rw [entriesAt, List.filterMap_eq_nil_iff]
  intro kv hkv
  have : ¬ kv.1 = k := fun he => h (he ▸ List.mem_map.mpr ⟨kv, hkv, rfl⟩)
  simp [this]

theorem filterMap_key_unique (k : String) (v : TsVal) :
    ∀ (m : Payload), (keysOf m).Nodup → m.any (fun p => p.1 = k) = true →
      m.filterMap (fun p => if p.1 = k then some v else none) = [v]
  | [], _, hany => by simp at hany
  | p :: m, hnd, hany => by
      rcases List.nodup_cons.mp hnd with ⟨hne, hnd'⟩
      by_cases hp : p.1 = k
      · rw [List.filterMap_cons]
        simp only [hp, if_pos]
        have hk : k ∉ keysOf m := hp ▸ hne
        rw [List.filterMap_eq_nil_iff.mpr]
        intro kv hkv
        have : ¬ kv.1 = k := fun he => hk (he ▸ List.mem_map.mpr ⟨kv, hkv, rfl⟩)
        simp [this]
      · rw [List.filterMap_cons]
        simp only [hp, if_neg, ite_eq_right_iff]
        have hany' : m.any (fun p => p.1 = k) = true := by
          rcases List.any_eq_true.mp hany with ⟨x, hx, hxk⟩
          rcases List.mem_cons.mp hx with rfl | hx'
          · exact absurd (by simpa using hxk) hp
          · exact List.any_eq_true.mpr ⟨x, hx', hxk⟩
        exact filterMap_key_unique k v m hnd' hany'

theorem entriesAt_objSet_self (m : Payload) (k : String) (v : TsVal)
    (hnd : (keysOf m).Nodup) : entriesAt (objSet m k v) k = [v] := by
  unfold objSet
  split
  · rename_i hany
    rw [entriesAt, List.filterMap_map]
    rw [filterMap_ext m (g := fun p => if p.1 = k then some v else none)]
    · exact filterMap_key_unique k v m hnd hany
    · intro p _
      by_cases hp : p.1 = k <;> simp [hp, Function.comp]
  · rename_i hany
    have hk : k ∉ keysOf m := by
      intro hmem
      obtain ⟨p, hp, he⟩ := List.mem_map.mp hmem
      exact hany (List.any_eq_true.mpr ⟨p, hp, by simp [he]⟩)
    rw [entriesAt, List.filterMap_append, List.filterMap_eq_nil_iff.mpr, List.nil_append]
    · simp
    · intro kv hkv
      have : ¬ kv.1 = k := fun he => hk (he ▸ List.mem_map.mpr ⟨kv, hkv, rfl⟩)
      simp [this]

theorem entriesAt_objSet_other (m : Payload) (k : String) (v : TsVal) (h : ¬ k₀ = k) :
    entriesAt (objSet m k v) k₀ = entriesAt m k₀ := by
  unfold objSet
  split
  · rw [entriesAt, List.filterMap_map]
    apply filterMap_ext
    intro p _
    by_cases hp : p.1 = k
    · have hkk : ¬ k = k₀ := fun he => h he.symm
      have hpk : ¬ p.1 = k₀ := fun he => hkk (hp.symm.trans he)
      simp [hp, hkk, hpk, Function.comp]
    · simp [hp, Function.comp]
  · rw [entriesAt, List.filterMap_append]
    simp [entriesAt, Ne.symm h, h]

theorem foldl_resolvedEntriesStep_keys (rd : Payload) :
    ∀ (acc : Payload), (∀ x ∈ keysOf acc, x ∈ allowedResolvedKeys) →
      ∀ x ∈ keysOf (rd.foldl resolvedEntriesStep acc), x ∈ allowedResolvedKeys := by
  induction rd with
  | nil => intro acc h; simpa using h
  | cons kv rest ih =>
      intro acc h
      rw [List.foldl_cons]
      apply ih
      unfold resolvedEntriesStep
      split
      · rename_i hcond
        split
        · intro x hx
          rcases keysOf_objSet_sub _ _ _ x hx with hm | rfl
          · exact h x hm
          · exact hcond.2
        · exact h
      · exact h

theorem foldl_resolvedEntriesStep_nodup (rd : Payload) :
    ∀ (acc : Payload), (keysOf acc).Nodup →
      (keysOf (rd.foldl resolvedEntriesStep acc)).Nodup := by
  induction rd with
  | nil => intro acc h; simpa using h
  | cons kv rest ih =>
      intro acc h
      rw [List.foldl_cons]
      apply ih
      unfold resolvedEntriesStep
      split
      · split
        · exact keysOf_objSet_nodup _ _ _ h
        · exact h
      · exact h

theorem filteredResolved_keys (rd : Payload) :
    ∀ x ∈ keysOf (filteredResolved rd), x ∈ allowedResolvedKeys :=
  foldl_resolvedEntriesStep_keys rd [] (by simp [keysOf])

theorem filteredResolved_nodup (rd : Payload) : (keysOf (filteredResolved rd)).Nodup :=
  foldl_resolvedEntriesStep_nodup rd [] (by simp [keysOf])

theorem buildUpdates_keys (rd : Payload) (sid : Option String) (now : Int) :
    ∀ x ∈ keysOf (buildUpdatesFromResolved rd sid now), x ∈ allowedResolvedKeys := by
  unfold buildUpdatesFromResolved
  split <;> intro x hx
  · rcases keysOf_objSet_sub _ _ _ x hx with hx2 | rfl
    · rcases keysOf_objSet_sub _ _ _ x hx2 with hx3 | rfl
      · exact filteredResolved_keys rd x hx3
      · decide
    · decide
  · rcases keysOf_objSet_sub _ _ _ x hx with hx2 | rfl
    · exact filteredResolved_keys rd x hx2
    · decide

theorem buildUpdates_nodup (rd : Payload) (sid : Option String) (now : Int) :
    (keysOf (buildUpdatesFromResolved rd sid now)).Nodup := by
  unfold buildUpdatesFromResolved
  split
  · exact keysOf_objSet_nodup _ _ _ (keysOf_objSet_nodup _ _ _ (filteredResolved_nodup rd))
  · exact keysOf_objSet_nodup _ _ _ (filteredResolved_nodup rd)

theorem entriesAt_buildUpdates_updated_at (rd : Payload) (sid : Option String)
    (now : Int) :
    entriesAt (buildUpdatesFromResolved rd sid now) "updated_at" =
      [.str (forcedUpdatedAt rd now)] := by
  unfold buildUpdatesFromResolved
  split
  · rw [entriesAt_objSet_other _ _ _ (by decide)]
    exact entriesAt_objSet_self _ _ _ (filteredResolved_nodup rd)
  · exact entriesAt_objSet_self _ _ _ (filteredResolved_nodup rd)

theorem entriesAt_buildUpdates_server_id (rd : Payload) (sid : Option String)
    (now : Int) (v : TsVal)
    (h : firstTruthy [sid.map .str, objGet rd "server_id", objGet rd "id"] = some v) :
    entriesAt (buildUpdatesFromResolved rd sid now) "server_id" = [v] := by
  unfold buildUpdatesFromResolved
  rw [h]
  exact entriesAt_objSet_self _ _ _
    (keysOf_objSet_nodup _ _ _ (filteredResolved_nodup rd))

theorem clausePrefix_key_iff :
    ∀ k ∈ allowedResolvedKeys, ∀ k' ∈ allowedResolvedKeys,
      (strStartsWith (k ++ " =") (k' ++ " = ?") = true ↔ k = k') := by decide

theorem clausePrefix_base_false :
    ∀ k ∈ allowedResolvedKeys,
      (strStartsWith (k ++ " =") "sync_status = ?" = false ∧
       strStartsWith (k ++ " =") "last_synced_at = ?" = false) := by decide

theorem clauseName_inj :
    ∀ k ∈ allowedResolvedKeys, ∀ k' ∈ allowedResolvedKeys,
      ((k ++ " = ?" : String) = k' ++ " = ?" ↔ k = k') := by decide

theorem clauseName_base_ne :
    ∀ k ∈ allowedResolvedKeys,
      ((k ++ " = ?" : String) ≠ "sync_status = ?" ∧
       (k ++ " = ?" : String) ≠ "last_synced_at = ?") := by decide

/-- The push loop, characterized: with distinct allow-listed keys and a
clash-free starting clause list, it appends one clause per entry except
`'id'`. -/
theorem pushResolvedClauses_eq (upd : Payload) :
    ∀ (cs : List Clause),
      (∀ x ∈ keysOf upd, x ∈ allowedResolvedKeys) →
      (keysOf upd).Nodup →
      (∀ kv ∈ upd, ∀ c ∈ cs, strStartsWith (kv.1 ++ " =") c.1 = false) →
      pushResolvedClauses cs upd =
        cs ++ (upd.filter (fun kv => ¬ kv.1 = "id")).map mkResolvedClause := by
  induction upd with
  | nil => intro cs _ _ _; simp [pushResolvedClauses]
  | cons kv rest ih =>
      intro cs hk hnd hcs
      have hkv : kv.1 ∈ allowedResolvedKeys := hk kv.1 (by simp [keysOf])
      have hany : cs.any (fun c => strStartsWith (kv.1 ++ " =") c.1) = false := by
        rw [List.any_eq_false]
        intro c hc
        simp [hcs kv (by simp) c hc]
      unfold pushResolvedClauses
      rw [List.foldl_cons]
      by_cases hid : kv.1 = "id"
      · rw [if_neg (by simp [hid])]
        unfold pushResolvedClauses at ih
        rw [ih cs (fun x hx => hk x (List.mem_cons_of_mem _ hx))
          (List.nodup_cons.mp hnd).2
          (fun kv' h' c hc => hcs kv' (List.mem_cons_of_mem _ h') c hc)]
        simp [hid]
      · rw [if_pos ⟨by simp [hany], hid⟩]
        unfold pushResolvedClauses at ih
        rw [ih (cs ++ [(kv.1 ++ " = ?", kv.2)])
          (fun x hx => hk x (List.mem_cons_of_mem _ hx))
          (List.nodup_cons.mp hnd).2 ?hcs]
        · rw [List.filter_cons_of_pos (by simp [hid]), List.map_cons,
            List.append_assoc, List.singleton_append]
          rfl
        case hcs =>
          intro kv' h' c hc
          rcases List.mem_append.mp hc with hc1 | hc2
          · exact hcs kv' (List.mem_cons_of_mem _ h') c hc1
          · have hc2' : c = (kv.1 ++ " = ?", kv.2) := by simpa using hc2
            subst hc2'
            have hkv' : kv'.1 ∈ allowedResolvedKeys :=
              hk kv'.1 (List.mem_cons_of_mem _ (List.mem_map.mpr ⟨kv', h', rfl⟩))
            have hne : ¬ kv'.1 = kv.1 := by
              intro he
              have hmem : kv.1 ∈ keysOf rest := by
                rw [← he]
                exact List.mem_map.mpr ⟨kv', h', rfl⟩
              exact (List.nodup_cons.mp hnd).1 hmem
            show strStartsWith (kv'.1 ++ " =") (kv.1 ++ " = ?") = false
            by_contra hbc
            have hb : strStartsWith (kv'.1 ++ " =") (kv.1 ++ " = ?") = true := by
              cases h2 : strStartsWith (kv'.1 ++ " =") (kv.1 ++ " = ?")
              · exact absurd h2 hbc
              · rfl
            exact hne ((clausePrefix_key_iff kv'.1 hkv' kv.1 hkv).mp hb)

theorem applyClause_proj_sync_status (r : TaskRow) (c : Clause) :
    (applyClause r c).sync_status = if c.1 = "sync_status = ?" then c.2 else r.sync_status := by
  unfold applyClause
  by_cases h1 : c.1 = "sync_status = ?"
  · rw [if_pos h1, if_pos h1]
  · rw [if_neg h1, if_neg h1]
    by_cases h2 : c.1 = "last_synced_at = ?"
    · rw [if_pos h2]
    · rw [if_neg h2]
      by_cases h3 : c.1 = "title = ?"
      · rw [if_pos h3]
      · rw [if_neg h3]
        by_cases h4 : c.1 = "description = ?"
        · rw [if_pos h4]
        · rw [if_neg h4]
          by_cases h5 : c.1 = "completed = ?"
          · rw [if_pos h5]
          · rw [if_neg h5]
            by_cases h6 : c.1 = "is_deleted = ?"
            · rw [if_pos h6]
            · rw [if_neg h6]
              by_cases h7 : c.1 = "updated_at = ?"
              · rw [if_pos h7]
              · rw [if_neg h7]
                by_cases h8 : c.1 = "server_id = ?"
                · rw [if_pos h8]
                · rw [if_neg h8]

theorem applyClause_proj_last_synced_at (r : TaskRow) (c : Clause) :
    (applyClause r c).last_synced_at = if c.1 = "last_synced_at = ?" then c.2 else r.last_synced_at := by
  unfold applyClause
  by_cases h1 : c.1 = "sync_status = ?"
  · rw [if_pos h1, if_neg (by rw [h1]; decide)]
  · rw [if_neg h1]
    by_cases h2 : c.1 = "last_synced_at = ?"
    · rw [if_pos h2, if_pos h2]
    · rw [if_neg h2, if_neg h2]
      by_cases h3 : c.1 = "title = ?"
      · rw [if_pos h3]
      · rw [if_neg h3]
        by_cases h4 : c.1 = "description = ?"
        · rw [if_pos h4]
        · rw [if_neg h4]
          by_cases h5 : c.1 = "completed = ?"
          · rw [if_pos h5]
          · rw [if_neg h5]
            by_cases h6 : c.1 = "is_deleted = ?"
            · rw [if_pos h6]
            · rw [if_neg h6]
              by_cases h7 : c.1 = "updated_at = ?"
              · rw [if_pos h7]
              · rw [if_neg h7]
                by_cases h8 : c.1 = "server_id = ?"
                · rw [if_pos h8]
                · rw [if_neg h8]

theorem applyClause_proj_updated_at (r : TaskRow) (c : Clause) :
    (applyClause r c).updated_at = if c.1 = "updated_at = ?" then c.2 else r.updated_at := by
  unfold applyClause
  by_cases h1 : c.1 = "sync_status = ?"
  · rw [if_pos h1, if_neg (by rw [h1]; decide)]
  · rw [if_neg h1]
    by_cases h2 : c.1 = "last_synced_at = ?"
    · rw [if_pos h2, if_neg (by rw [h2]; decide)]
    · rw [if_neg h2]
      by_cases h3 : c.1 = "title = ?"
      · rw [if_pos h3, if_neg (by rw [h3]; decide)]
      · rw [if_neg h3]
        by_cases h4 : c.1 = "description = ?"
        · rw [if_pos h4, if_neg (by rw [h4]; decide)]
        · rw [if_neg h4]
          by_cases h5 : c.1 = "completed = ?"
          · rw [if_pos h5, if_neg (by rw [h5]; decide)]
          · rw [if_neg h5]
            by_cases h6 : c.1 = "is_deleted = ?"
            · rw [if_pos h6, if_neg (by rw [h6]; decide)]
            · rw [if_neg h6]
              by_cases h7 : c.1 = "updated_at = ?"
              · rw [if_pos h7, if_pos h7]
              · rw [if_neg h7, if_neg h7]
                by_cases h8 : c.1 = "server_id = ?"
                · rw [if_pos h8]
                · rw [if_neg h8]

theorem applyClause_proj_server_id (r : TaskRow) (c : Clause) :
    (applyClause r c).server_id = if c.1 = "server_id = ?" then c.2 else r.server_id := by
  unfold applyClause
  by_cases h1 : c.1 = "sync_status = ?"
  · rw [if_pos h1, if_neg (by rw [h1]; decide)]
  · rw [if_neg h1]
    by_cases h2 : c.1 = "last_synced_at = ?"
    · rw [if_pos h2, if_neg (by rw [h2]; decide)]
    · rw [if_neg h2]
      by_cases h3 : c.1 = "title = ?"
      · rw [if_pos h3, if_neg (by rw [h3]; decide)]
      · rw [if_neg h3]
        by_cases h4 : c.1 = "description = ?"
        · rw [if_pos h4, if_neg (by rw [h4]; decide)]
        · rw [if_neg h4]
          by_cases h5 : c.1 = "completed = ?"
          · rw [if_pos h5, if_neg (by rw [h5]; decide)]
          · rw [if_neg h5]
            by_cases h6 : c.1 = "is_deleted = ?"
            · rw [if_pos h6, if_neg (by rw [h6]; decide)]
            · rw [if_neg h6]
              by_cases h7 : c.1 = "updated_at = ?"
              · rw [if_pos h7, if_neg (by rw [h7]; decide)]
              · rw [if_neg h7]
                by_cases h8 : c.1 = "server_id = ?"
                · rw [if_pos h8, if_pos h8]
                · rw [if_neg h8, if_neg h8]


theorem getLast?_getD_cons {α : Type} (a d : α) :
    ∀ (l : List α), ((a :: l).getLast?).getD d = (l.getLast?).getD a
  | [] => rfl
  | b :: l => by
      rw [List.getLast?_cons_cons]
      have hs : (b :: l).getLast?.isSome := by
        rw [List.getLast?_isSome]
        simp
      obtain ⟨x, hx⟩ := Option.isSome_iff_exists.mp hs
      rw [hx]
      rfl

theorem lastVal_cons (c : Clause) (cs : List Clause) (n : String) (d : TsVal) :
    (lastVal (c :: cs) n).getD d = (lastVal cs n).getD (if c.1 = n then c.2 else d) := by
  unfold lastVal
  rw [List.filterMap_cons]
  by_cases h : c.1 = n
  · rw [if_pos h, if_pos h]
    exact getLast?_getD_cons _ _ _
  · rw [if_neg h, if_neg h]

theorem foldl_applyClause_proj (proj : TaskRow → TsVal) (name : String)
    (hstep : ∀ r c, proj (applyClause r c) = if c.1 = name then c.2 else proj r) :
    ∀ (cs : List Clause) (r : TaskRow),
      proj (cs.foldl applyClause r) = (lastVal cs name).getD (proj r)
  | [], _ => rfl
  | c :: cs, r => by
      rw [List.foldl_cons, foldl_applyClause_proj proj name hstep cs (applyClause r c),
        hstep, lastVal_cons]

/-- The clause list of a `'synced'` update carrying resolved data. -/
theorem updateSyncStatusClauses_synced_some (rd : Payload) (sid : Option String)
    (now : Int) :
    updateSyncStatusClauses "synced" sid (some rd) now =
      baseSyncedClauses now ++
        ((buildUpdatesFromResolved rd sid now).filter (fun kv => ¬ kv.1 = "id")).map
          mkResolvedClause := by
  show pushResolvedClauses (baseSyncedClauses now) (buildUpdatesFromResolved rd sid now) = _
  apply pushResolvedClauses_eq _ _ (buildUpdates_keys rd sid now)
    (buildUpdates_nodup rd sid now)
  intro kv hkv c hc
  have hk : kv.1 ∈ allowedResolvedKeys :=
    buildUpdates_keys rd sid now kv.1 (List.mem_map.mpr ⟨kv, hkv, rfl⟩)
  rcases clausePrefix_base_false kv.1 hk with ⟨hb1, hb2⟩
  rcases List.mem_cons.mp hc with rfl | hc2
  · exact hb1
  · have : c = ("last_synced_at = ?", .str (dateToIso (.date now))) := by simpa using hc2
    subst this
    exact hb2

/-- The clause list of a `'synced'` update without resolved data but
with a non-empty `serverId`. -/
theorem updateSyncStatusClauses_synced_none (sid : String) (now : Int) (h : sid ≠ "") :
    updateSyncStatusClauses "synced" (some sid) none now =
      baseSyncedClauses now ++ [("server_id = ?", .str sid)] := by
  unfold updateSyncStatusClauses
  dsimp only
  rw [if_pos ⟨h, fun hc => Bool.noConfusion hc⟩, if_pos rfl]
  rfl

theorem filterMap_sel_mapped (k₀ : String) (h0 : k₀ ∈ allowedResolvedKeys)
    (hne : ¬ k₀ = "id") :
    ∀ (upd : Payload), (∀ x ∈ keysOf upd, x ∈ allowedResolvedKeys) →
      ((upd.filter (fun kv => ¬ kv.1 = "id")).map mkResolvedClause).filterMap
          (fun c => if c.1 = k₀ ++ " = ?" then some c.2 else none) =
        entriesAt upd k₀
  | [], _ => rfl
  | kv :: rest, hk => by
      have hkv : kv.1 ∈ allowedResolvedKeys := hk kv.1 (List.mem_cons_self _ _)
      have ihr := filterMap_sel_mapped k₀ h0 hne rest
        (fun x hx => hk x (List.mem_cons_of_mem _ hx))
      by_cases hid : kv.1 = "id"
      · have hkk : ¬ kv.1 = k₀ := fun he => hne (he.symm.trans hid)
        have hcons : entriesAt (kv :: rest) k₀ = entriesAt rest k₀ := by
          rw [entriesAt, entriesAt, List.filterMap_cons_none (by rw [if_neg hkk])]
        rw [List.filter_cons_of_neg (by simp [hid]), hcons]
        exact ihr
      · by_cases he : kv.1 = k₀
        · have hcons : entriesAt (kv :: rest) k₀ = kv.2 :: entriesAt rest k₀ := by
            rw [entriesAt, entriesAt,
              List.filterMap_cons_some (by rw [if_pos he])]
          have hname : (mkResolvedClause kv).1 = k₀ ++ " = ?" := by
            rw [mkResolvedClause, he]
          rw [List.filter_cons_of_pos (by simp [hid]), List.map_cons,
            List.filterMap_cons_some (by rw [if_pos hname]), hcons, ihr]
          rfl
        · have hname : ¬ (mkResolvedClause kv).1 = k₀ ++ " = ?" := by
            rw [mkResolvedClause]
            exact fun hq => he ((clauseName_inj kv.1 hkv k₀ h0).mp hq)
          have hcons : entriesAt (kv :: rest) k₀ = entriesAt rest k₀ := by
            rw [entriesAt, entriesAt, List.filterMap_cons_none (by rw [if_neg he])]
          rw [List.filter_cons_of_pos (by simp [hid]), List.map_cons,
            List.filterMap_cons_none (by rw [if_neg hname]), hcons]
          exact ihr

/-- The value actually written to an allow-listed column by a `synced`
update with resolved data: the last entry of `updatesFromResolved`
under that key. -/
theorem lastVal_synced_some (rd : Payload) (sid : Option String) (now : Int)
    (k₀ : String) (h0 : k₀ ∈ allowedResolvedKeys) (hne : ¬ k₀ = "id") :
    lastVal (updateSyncStatusClauses "synced" sid (some rd) now) (k₀ ++ " = ?") =
      (entriesAt (buildUpdatesFromResolved rd sid now) k₀).getLast? := by
  rw [updateSyncStatusClauses_synced_some, lastVal, List.filterMap_append]
  rcases clauseName_base_ne k₀ h0 with ⟨hb1, hb2⟩
  have hbase : (baseSyncedClauses now).filterMap
      (fun c => if c.1 = k₀ ++ " = ?" then some c.2 else none) = [] := by
    rw [baseSyncedClauses, List.filterMap_cons, List.filterMap_cons,
      if_neg (fun he => hb1 he.symm), if_neg (fun he => hb2 he.symm)]
    rfl
  rw [hbase, List.nil_append,
    filterMap_sel_mapped k₀ h0 hne _ (buildUpdates_keys rd sid now)]

/-- `sync_status` is always set to the reconciliation status and never
overwritten by a resolved-data clause. -/
theorem lastVal_synced_some_sync_status (rd : Payload) (sid : Option String)
    (now : Int) :
    lastVal (updateSyncStatusClauses "synced" sid (some rd) now) "sync_status = ?" =
      some (.str "synced") := by
  rw [updateSyncStatusClauses_synced_some, lastVal, List.filterMap_append]
  have hmapped : (((buildUpdatesFromResolved rd sid now).filter
        (fun kv => ¬ kv.1 = "id")).map mkResolvedClause).filterMap
      (fun c => if c.1 = "sync_status = ?" then some c.2 else none) = [] := by
    rw [List.filterMap_eq_nil_iff]
    intro c hc
    obtain ⟨kv, hkv, rfl⟩ := List.mem_map.mp hc
    have hk : kv.1 ∈ allowedResolvedKeys :=
      buildUpdates_keys rd sid now kv.1
        (List.mem_map.mpr ⟨kv, List.mem_of_mem_filter hkv, rfl⟩)
    rw [mkResolvedClause, if_neg (clauseName_base_ne kv.1 hk).1]
  rw [hmapped, List.append_nil]
  rfl

/-- `last_synced_at` is always stamped with the run's clock and never
overwritten by a resolved-data clause. -/
theorem lastVal_synced_some_last_synced_at (rd : Payload) (sid : Option String)
    (now : Int) :
    lastVal (updateSyncStatusClauses "synced" sid (some rd) now) "last_synced_at = ?" =
      some (.str (dateToIso (.date now))) := by
  rw [updateSyncStatusClauses_synced_some, lastVal, List.filterMap_append]
  have hmapped : (((buildUpdatesFromResolved rd sid now).filter
        (fun kv => ¬ kv.1 = "id")).map mkResolvedClause).filterMap
      (fun c => if c.1 = "last_synced_at = ?" then some c.2 else none) = [] := by
    rw [List.filterMap_eq_nil_iff]
    intro c hc
    obtain ⟨kv, hkv, rfl⟩ := List.mem_map.mp hc
    have hk : kv.1 ∈ allowedResolvedKeys :=
      buildUpdates_keys rd sid now kv.1
        (List.mem_map.mpr ⟨kv, List.mem_of_mem_filter hkv, rfl⟩)
    rw [mkResolvedClause, if_neg (clauseName_base_ne kv.1 hk).2]
  rw [hmapped, List.append_nil]
  rfl

theorem firstTruthy_cons_truthy (v : TsVal) (rest : List (Option TsVal))
    (h : jsTruthy v = true) : firstTruthy (some v :: rest) = some v := by
  show (if jsTruthy v then some v else firstTruthy rest) = some v
  rw [if_pos h]

/-- The `sync_status` column a `'synced'` reconciliation writes. -/
theorem foldl_synced_sync_status (rdOpt : Option Payload) (sidv : String) (now : Int)
    (r : TaskRow) (hsid : sidv ≠ "") :
    ((updateSyncStatusClauses "synced" (some sidv) rdOpt now).foldl applyClause r).sync_status =
      .str "synced" := by
  rw [foldl_applyClause_proj (fun r => r.sync_status) "sync_status = ?"
    applyClause_proj_sync_status]
  cases rdOpt with
  | none =>
      rw [updateSyncStatusClauses_synced_none sidv now hsid]
      rfl
  | some rd =>
      rw [lastVal_synced_some_sync_status rd (some sidv) now]
      rfl

/-- The `last_synced_at` column a `'synced'` reconciliation writes. -/
theorem foldl_synced_last_synced_at (rdOpt : Option Payload) (sidv : String) (now : Int)
    (r : TaskRow) (hsid : sidv ≠ "") :
    ((updateSyncStatusClauses "synced" (some sidv) rdOpt now).foldl applyClause
        r).last_synced_at = .str (dateToIso (.date now)) := by
  rw [foldl_applyClause_proj (fun r => r.last_synced_at) "last_synced_at = ?"
    applyClause_proj_last_synced_at]
  cases rdOpt with
  | none =>
      rw [updateSyncStatusClauses_synced_none sidv now hsid]
      rfl
  | some rd =>
      rw [lastVal_synced_some_last_synced_at rd (some sidv) now]
      rfl

/-- The `server_id` column a `'synced'` reconciliation writes when an
explicit non-empty `serverId` is supplied: always that `serverId`,
whatever the resolved payload carries. -/
theorem foldl_synced_server_id (rdOpt : Option Payload) (sidv : String) (now : Int)
    (r : TaskRow) (hsid : sidv ≠ "") :
    ((updateSyncStatusClauses "synced" (some sidv) rdOpt now).foldl applyClause
        r).server_id = .str sidv := by
  rw [foldl_applyClause_proj (fun r => r.server_id) "server_id = ?"
    applyClause_proj_server_id]
  cases rdOpt with
  | none =>
      rw [updateSyncStatusClauses_synced_none sidv now hsid]
      rfl
  | some rd =>
      have hks := lastVal_synced_some rd (some sidv) now "server_id"
        (by decide) (by decide)
      rw [show ("server_id" ++ " = ?" : String) = "server_id = ?" from rfl] at hks
      rw [hks, entriesAt_buildUpdates_server_id rd (some sidv) now (.str sidv)
        (firstTruthy_cons_truthy _ _ (decide_eq_true hsid))]
      rfl

theorem foldl_eq_foldl_filter {α β : Type} (f : β → α → β) (p : α → Bool)
    (hf : ∀ acc a, p a = false → f acc a = acc) :
    ∀ (l : List α) (acc : β), l.foldl f acc = (l.filter p).foldl f acc
  | [], _ => rfl
  | a :: l, acc => by
      cases hp : p a
      · rw [List.filter_cons_of_neg (by simp [hp]), List.foldl_cons, hf acc a hp,
          foldl_eq_foldl_filter f p hf l acc]
      · rw [List.filter_cons_of_pos (by simp [hp]), List.foldl_cons, List.foldl_cons,
          foldl_eq_foldl_filter f p hf l (f acc a)]

theorem objGet_filter (k : String) (p : String × TsVal → Bool)
    (hp : ∀ kv : String × TsVal, kv.1 = k → p kv = true) :
    ∀ (m : Payload), objGet (m.filter p) k = objGet m k
  | [] => rfl
  | kv :: m => by
      have ih := objGet_filter k p hp m
      unfold objGet at ih ⊢
      by_cases hk : kv.1 = k
      · rw [List.filter_cons_of_pos (hp kv hk)]
        simp [List.find?_cons, hk]
      · cases hpv : p kv
        · rw [List.filter_cons_of_neg (by simp [hpv])]
          simpa [List.find?_cons, hk] using ih
        · rw [List.filter_cons_of_pos hpv]
          simpa [List.find?_cons, hk] using ih

/-- Entries whose key is outside the source's checked key set have no
influence: filtering them away leaves `updatesFromResolved` unchanged. -/
theorem buildUpdates_filter_invariant (rd : Payload) (sid : Option String) (now : Int) :
    buildUpdatesFromResolved (rd.filter (fun kv => kv.1 ∈ allowedResolvedKeys)) sid now =
      buildUpdatesFromResolved rd sid now := by
  have hstep : filteredResolved (rd.filter (fun kv => kv.1 ∈ allowedResolvedKeys)) =
      filteredResolved rd := by
    unfold filteredResolved
    rw [← foldl_eq_foldl_filter resolvedEntriesStep _ ?hid]
    case hid =>
      intro acc kv hkv
      unfold resolvedEntriesStep
      rw [if_neg]
      intro hc
      rw [decide_eq_false_iff_not] at hkv
      exact hkv hc.2
  have hg : ∀ k, k ∈ allowedResolvedKeys →
      objGet (rd.filter (fun kv => kv.1 ∈ allowedResolvedKeys)) k = objGet rd k := by
    intro k hk
    exact objGet_filter k _ (fun kv hkv => by simp [hkv, hk]) rd
  unfold buildUpdatesFromResolved forcedUpdatedAt
  rw [hstep, hg "updated_at" (by decide), hg "server_id" (by decide),
    hg "id" (by decide)]

theorem allowedKey_clauseName :
    ∀ k ∈ allowedResolvedKeys, ¬ k = "id" →
      ((k ++ " = ?" : String) ∈ allowedClauseNames ∧ (k ++ " = ?" : String) ≠ "id = ?") := by
  decide

/-- Every clause a resolved-data reconciliation can emit targets one of
the eight fixed columns — in particular never an `id = ?` clause and
never a column named by a foreign payload key. -/
theorem updateSyncStatusClauses_names (rd : Payload) (sid : Option String) (now : Int) :
    ∀ c ∈ updateSyncStatusClauses "synced" sid (some rd) now,
      c.1 ∈ allowedClauseNames ∧ c.1 ≠ "id = ?" := by
  intro c hc
  rw [updateSyncStatusClauses_synced_some] at hc
  rcases List.mem_append.mp hc with hb | hm
  · rcases List.mem_cons.mp hb with rfl | hb2
    · exact ⟨by decide, by decide⟩
    · have hcv : c = ("last_synced_at = ?", .str (dateToIso (.date now))) := by
        simpa using hb2
      subst hcv
      exact ⟨by show ("last_synced_at = ?" : String) ∈ allowedClauseNames; decide,
        by show ("last_synced_at = ?" : String) ≠ "id = ?"; decide⟩
  · obtain ⟨kv, hkv, rfl⟩ := List.mem_map.mp hm
    have hk : kv.1 ∈ allowedResolvedKeys :=
      buildUpdates_keys rd sid now kv.1
        (List.mem_map.mpr ⟨kv, List.mem_of_mem_filter hkv, rfl⟩)
    have hid : ¬ kv.1 = "id" := by simpa using List.of_mem_filter hkv
    exact allowedKey_clauseName kv.1 hk hid

/-- The `updated_at` column every resolved-data reconciliation writes:
the resolved `updated_at` when truthy, the current time otherwise. -/
theorem foldl_synced_updated_at (rd : Payload) (sid : Option String) (now : Int)
    (r : TaskRow) :
    ((updateSyncStatusClauses "synced" sid (some rd) now).foldl applyClause r).updated_at =
      .str (forcedUpdatedAt rd now) := by
  rw [foldl_applyClause_proj (fun r => r.updated_at) "updated_at = ?"
    applyClause_proj_updated_at]
  have hks := lastVal_synced_some rd sid now "updated_at" (by decide) (by decide)
  rw [show ("updated_at" ++ " = ?" : String) = "updated_at = ?" from rfl] at hks
  rw [hks, entriesAt_buildUpdates_updated_at rd sid now]
  rfl

/-! ## Chunk lemmas -/

theorem chunksF_flatten {α : Type} (bs : Nat) :
    ∀ (fuel : Nat) (l : List α), l.length ≤ fuel → (chunksF bs fuel l).flatten = l
  | fuel, [], _ => by cases fuel <;> rfl
  | 0, a :: rest, h => by simp at h
  | fuel + 1, a :: rest, h => by
      have hlen : (rest.drop (bs - 1)).length ≤ fuel := by
        rw [List.length_drop]
        simp only [List.length_cons] at h
        omega
      rw [chunksF, List.flatten_cons, chunksF_flatten bs fuel (rest.drop (bs - 1)) hlen]
      rw [List.cons_append, List.take_append_drop]

/-- Concatenating the batches in order yields the working set in order:
batch partitioning preserves order within and across boundaries. -/
theorem chunks_flatten {α : Type} (bs : Nat) (l : List α) : (chunks bs l).flatten = l :=
  chunksF_flatten bs l.length l le_rfl

theorem mem_chunksF_slice {α : Type} (bs : Nat) :
    ∀ (fuel : Nat) (l : List α) (b : List α), b ∈ chunksF bs fuel l → b <:+: l
  | fuel, [], b, hb => by cases fuel <;> simp [chunksF] at hb
  | 0, a :: rest, b, hb => by simp [chunksF] at hb
  | fuel + 1, a :: rest, b, hb => by
      rw [chunksF] at hb
      rcases List.mem_cons.mp hb with rfl | hb2
      · refine List.IsPrefix.isInfix ⟨rest.drop (bs - 1), ?_⟩
        rw [List.cons_append, List.take_append_drop]
      · exact (mem_chunksF_slice bs fuel _ b hb2).trans
          ((List.IsSuffix.trans (List.drop_suffix (bs - 1) rest)
            (List.suffix_cons a rest)).isInfix)

/-- Every batch is a contiguous, in-order slice of the working set. -/
theorem mem_chunks_slice {α : Type} (bs : Nat) (l : List α) (b : List α)
    (hb : b ∈ chunks bs l) : b <:+: l :=
  mem_chunksF_slice bs l.length l b hb

theorem mem_of_mem_chunks {α : Type} (bs : Nat) (l : List α) (b : List α) (x : α)
    (hb : b ∈ chunks bs l) (hx : x ∈ b) : x ∈ l :=
  (mem_chunks_slice bs l b hb).sublist.mem hx

theorem chunksF_ne_nil {α : Type} (bs : Nat) :
    ∀ (fuel : Nat) (l : List α) (b : List α), b ∈ chunksF bs fuel l → b ≠ []
  | fuel, [], b, hb => by cases fuel <;> simp [chunksF] at hb
  | 0, a :: rest, b, hb => by simp [chunksF] at hb
  | fuel + 1, a :: rest, b, hb => by
      rw [chunksF] at hb
      rcases List.mem_cons.mp hb with rfl | hb2
      · exact List.cons_ne_nil _ _
      · exact chunksF_ne_nil bs fuel _ b hb2

/-- No batch is empty. -/
theorem chunks_ne_nil {α : Type} (bs : Nat) (l : List α) (b : List α)
    (hb : b ∈ chunks bs l) : b ≠ [] :=
  chunksF_ne_nil bs l.length l b hb

/-! ## `extractFirst`, `consumeMatches` and retry-fold lemmas -/

theorem extractFirst_some_mem {α : Type} (p : α → Bool) :
    ∀ (l : List α) (x : α × List α), extractFirst p l = some x → x.1 ∈ l ∧ p x.1 = true
  | [], x, h => by simp [extractFirst] at h
  | a :: as, x, h => by
      rw [extractFirst] at h
      by_cases ha : p a
      · rw [if_pos ha] at h
        obtain rfl := (Option.some_inj.mp h).symm
        exact ⟨List.mem_cons_self a as, ha⟩
      · rw [if_neg ha] at h
        cases hr : extractFirst p as with
        | none => rw [hr] at h; simp at h
        | some y =>
            rw [hr] at h
            obtain rfl := (Option.some_inj.mp h).symm
            have := extractFirst_some_mem p as y hr
            exact ⟨List.mem_cons_of_mem a this.1, this.2⟩

theorem extractFirst_survives {α : Type} (p : α → Bool) :
    ∀ (l : List α) (x : α) (rest : List α) (y : α),
      extractFirst p l = some (x, rest) → y ∈ l → p y = false → y ∈ rest
  | [], x, rest, y, h, _, _ => by simp [extractFirst] at h
  | a :: as, x, rest, y, h, hy, hpy => by
      rw [extractFirst] at h
      by_cases ha : p a
      · rw [if_pos ha] at h
        obtain ⟨rfl, rfl⟩ := Prod.mk.injEq .. ▸ Option.some_inj.mp h
        rcases List.mem_cons.mp hy with rfl | hy2
        · rw [ha] at hpy; cases hpy
        · exact hy2
      · rw [if_neg ha] at h
        cases hr : extractFirst p as with
        | none => rw [hr] at h; simp at h
        | some z =>
            rw [hr] at h
            have hz : x = z.1 ∧ rest = a :: z.2 := by
              have := Option.some_inj.mp h
              exact ⟨congrArg Prod.fst this.symm, congrArg Prod.snd this.symm⟩
            rcases List.mem_cons.mp hy with rfl | hy2
            · rw [hz.2]; exact List.mem_cons_self _ _
            · rw [hz.2]
              exact List.mem_cons_of_mem a
                (extractFirst_survives p as z.1 z.2 y (by rw [hr]) hy2 hpy)

theorem extractFirst_sublist {α : Type} (p : α → Bool) :
    ∀ (l : List α) (x : α) (rest : List α),
      extractFirst p l = some (x, rest) → rest.Sublist l
  | [], x, rest, h => by simp [extractFirst] at h
  | a :: as, x, rest, h => by
      rw [extractFirst] at h
      by_cases ha : p a
      · rw [if_pos ha] at h
        have : rest = as := congrArg Prod.snd (Option.some_inj.mp h).symm
        rw [this]
        exact List.sublist_cons_self a as
      · rw [if_neg ha] at h
        cases hr : extractFirst p as with
        | none => rw [hr] at h; simp at h
        | some z =>
            rw [hr] at h
            have : rest = a :: z.2 := congrArg Prod.snd (Option.some_inj.mp h).symm
            rw [this]
            exact List.Sublist.cons₂ a (extractFirst_sublist p as z.1 z.2 (by rw [hr]))

theorem consumeMatches_sublist (batch : List SyncQueueItem) :
    ∀ (ps : List ProcessedItem), (consumeMatches batch ps).Sublist batch := by
  suffices hgen : ∀ (ps : List ProcessedItem) (lb : List SyncQueueItem),
      (ps.foldl (fun lb p =>
        match extractFirst (fun item => item.task_id = p.client_id) lb with
        | none => lb
        | some x => x.2) lb).Sublist lb by
    intro ps
    exact hgen ps batch
  intro ps
  induction ps with
  | nil => exact fun lb => List.Sublist.refl lb
  | cons p ps ih =>
      intro lb
      rw [List.foldl_cons]
      cases hm : extractFirst (fun item => item.task_id = p.client_id) lb with
      | none =>
          have := ih lb
          simpa [hm] using this
      | some z =>
          have h1 := ih z.2
          have h2 := extractFirst_sublist _ lb z.1 z.2 (by rw [hm])
          simp only [hm]
          exact h1.trans h2

theorem mem_consumeMatches_of_no_match :
    ∀ (ps : List ProcessedItem) (batch : List SyncQueueItem) (it : SyncQueueItem),
      it ∈ batch → (∀ p ∈ ps, ¬ it.task_id = p.client_id) →
      it ∈ consumeMatches batch ps
  | [], _, _, hit, _ => hit
  | p :: ps, batch, it, hit, hno => by
      rw [consumeMatches, List.foldl_cons]
      have hstep : it ∈ (match extractFirst
          (fun item => item.task_id = p.client_id) batch with
        | none => batch
        | some x => x.2) := by
        cases hm : extractFirst (fun item => item.task_id = p.client_id) batch with
        | none => exact hit
        | some z =>
            exact extractFirst_survives _ batch z.1 z.2 it
              (by rw [hm]) hit
              (by simp [hno p (List.mem_cons_self p ps)])
      exact mem_consumeMatches_of_no_match ps _ it hstep
        (fun q hq => hno q (List.mem_cons_of_mem p hq))

/-- The running working set of the matching loop, projected out: it is
`consumeMatches`, independently of the DB state and counters. -/
theorem reconcile_foldl_leftover (ctx : Ctx) :
    ∀ (ps : List ProcessedItem) (st : DbState) (res : SyncResult)
      (lb : List SyncQueueItem),
      (ps.foldl (reconcileProcessed ctx) (st, res, lb)).2.2 = consumeMatches lb ps
  | [], _, _, _ => rfl
  | p :: ps, st, res, lb => by
      rw [List.foldl_cons, consumeMatches, List.foldl_cons]
      have hstep : (reconcileProcessed ctx (st, res, lb) p).2.2 =
          (match extractFirst (fun item => item.task_id = p.client_id) lb with
           | none => lb
           | some x => x.2) := by
        unfold reconcileProcessed
        cases hm : extractFirst (fun item => item.task_id = p.client_id) lb with
        | none => simp [hm]
        | some z =>
            simp only [hm]
            by_cases h1 : p.status = "success"
            · simp [h1]
            · by_cases h2 : p.status = "conflict" <;> simp [h1, h2]
      have hout := reconcile_foldl_leftover ctx ps
        (reconcileProcessed ctx (st, res, lb) p).1
        (reconcileProcessed ctx (st, res, lb) p).2.1
        (reconcileProcessed ctx (st, res, lb) p).2.2
      rw [← hstep]
      exact hout

/-- The result component of one retry-policy call, in closed form. -/
theorem handleSyncError_result (st : DbState) (res : SyncResult) (item : SyncQueueItem)
    (msg : String) (mr : Nat) (now : Int) :
    (handleSyncError st res item msg mr now).2 =
      { res with
          failed_items := res.failed_items + (if mr < item.retry_count + 1 then 1 else 0),
          errors := res.errors ++ [retryErrorEntry item msg mr now] } := by
  by_cases h : mr < item.retry_count + 1
  · rw [handleSyncError_perm st res item msg mr now h]
    simp [retryErrorEntry, h]
  · rw [handleSyncError_temp st res item msg mr now (by omega)]
    simp [retryErrorEntry, h]

theorem permFailCount_cons (it : SyncQueueItem) (items : List SyncQueueItem) (mr : Nat) :
    permFailCount (it :: items) mr =
      (if mr < it.retry_count + 1 then 1 else 0) + permFailCount items mr := by
  unfold permFailCount
  by_cases h : mr < it.retry_count + 1 <;> simp [h, Nat.add_comm]

/-- The result of handing a whole item list to the retry policy. -/
theorem foldl_handle_result (msg : String) (mr : Nat) (now : Int) :
    ∀ (items : List SyncQueueItem) (st : DbState) (res : SyncResult),
      (items.foldl (fun acc item => handleSyncError acc.1 acc.2 item msg mr now)
          (st, res)).2 =
        { res with
            failed_items := res.failed_items + permFailCount items mr,
            errors := res.errors ++ items.map (fun it => retryErrorEntry it msg mr now) }
  | [], st, res => by simp [permFailCount]
  | it :: items, st, res => by
      rw [List.foldl_cons]
      have hit := handleSyncError_result st res it msg mr now
      rw [show handleSyncError st res it msg mr now =
        ((handleSyncError st res it msg mr now).1, (handleSyncError st res it msg mr now).2)
        from rfl]
      rw [hit, foldl_handle_result msg mr now items _ _]
      simp [permFailCount_cons, Nat.add_assoc]

/-- The result component of one catch-path item handling (status
re-read plus retry policy): identical bookkeeping. -/
theorem processFailedBatchItem_result (ctx : Ctx) (st : DbState) (res : SyncResult)
    (item : SyncQueueItem) (msg : String) :
    (processFailedBatchItem ctx (st, res) item msg).2 =
      { res with
          failed_items := res.failed_items +
            (if ctx.maxRetries < item.retry_count + 1 then 1 else 0),
          errors := res.errors ++ [retryErrorEntry item msg ctx.maxRetries ctx.now] } := by
  unfold processFailedBatchItem
  dsimp only
  rw [handleSyncError_result]

/-- The result of the batch-level `catch` handling over a whole batch. -/
theorem foldl_processFailed_result (ctx : Ctx) (msg : String) :
    ∀ (items : List SyncQueueItem) (st : DbState) (res : SyncResult),
      (items.foldl (fun acc item => processFailedBatchItem ctx acc item msg)
          (st, res)).2 =
        { res with
            failed_items := res.failed_items + permFailCount items ctx.maxRetries,
            errors := res.errors ++
              items.map (fun it => retryErrorEntry it msg ctx.maxRetries ctx.now) }
  | [], st, res => by simp [permFailCount]
  | it :: items, st, res => by
      rw [List.foldl_cons]
      have hit := processFailedBatchItem_result ctx st res it msg
      rw [show processFailedBatchItem ctx (st, res) it msg =
        ((processFailedBatchItem ctx (st, res) it msg).1,
         (processFailedBatchItem ctx (st, res) it msg).2) from rfl]
      rw [hit, foldl_processFailed_result ctx msg items _ _]
      simp [permFailCount_cons, Nat.add_assoc]

/-- Counter bookkeeping of the matching loop: `synced_items` and
`failed_items` advance by amounts depending only on the batch and the
response, and `success` is never touched by it. -/
theorem reconcile_foldl_result (ctx : Ctx) :
    ∀ (ps : List ProcessedItem) (st : DbState) (res : SyncResult)
      (lb : List SyncQueueItem),
      ((ps.foldl (reconcileProcessed ctx) (st, res, lb)).2.1).synced_items =
        res.synced_items + syncedDelta ps lb ∧
      ((ps.foldl (reconcileProcessed ctx) (st, res, lb)).2.1).failed_items =
        res.failed_items + matchedFailDelta ctx.maxRetries ps lb ∧
      ((ps.foldl (reconcileProcessed ctx) (st, res, lb)).2.1).success = res.success
  | [], st, res, lb => by simp [syncedDelta, matchedFailDelta]
  | p :: ps, st, res, lb => by
      rw [List.foldl_cons, syncedDelta, matchedFailDelta]
      have step := reconcileProcessed ctx (st, res, lb) p
      have ih := reconcile_foldl_result ctx ps
        (reconcileProcessed ctx (st, res, lb) p).1
        (reconcileProcessed ctx (st, res, lb) p).2.1
        (reconcileProcessed ctx (st, res, lb) p).2.2
      cases hm : extractFirst (fun item => item.task_id = p.client_id) lb with
      | none =>
          have hstep : reconcileProcessed ctx (st, res, lb) p = (st, res, lb) := by
            unfold reconcileProcessed
            simp [hm]
          rw [hstep] at ih ⊢
          simpa [hm] using ih
      | some z =>
          by_cases h1 : p.status = "success"
          · have hstep : reconcileProcessed ctx (st, res, lb) p =
                (updateSyncStatus st z.1.id z.1.task_id "synced" p.server_id
                   p.resolved_data ctx.now,
                 { res with synced_items := res.synced_items + 1 }, z.2) := by
              unfold reconcileProcessed
              simp [hm, h1]
            rw [hstep] at ih
            rw [hstep]
            simp only [hm, h1]
            refine ⟨?_, ?_, ?_⟩
            · rw [ih.1]
              simp [Nat.add_assoc, Nat.add_comm 1]
            · rw [ih.2.1]
              simp
            · exact ih.2.2
          · by_cases h2 : p.status = "conflict"
            · have hstep : reconcileProcessed ctx (st, res, lb) p =
                  (updateSyncStatus st z.1.id z.1.task_id "synced" p.server_id
                     p.resolved_data ctx.now,
                   { res with
                      synced_items := res.synced_items + 1,
                      errors := res.errors ++
                        [⟨z.1.task_id, z.1.operation, "Conflict resolved (LWW)",
                          ctx.now⟩] }, z.2) := by
                unfold reconcileProcessed
                simp [hm, h1, h2]
              rw [hstep] at ih
              rw [hstep]
              simp only [hm, h1, h2]
              refine ⟨?_, ?_, ?_⟩
              · rw [ih.1]
                simp [Nat.add_assoc, Nat.add_comm 1]
              · rw [ih.2.1]
                simp
              · exact ih.2.2
            · have hstep : reconcileProcessed ctx (st, res, lb) p =
                  ((handleSyncError st res z.1 (serverErrMsg p.error)
                      ctx.maxRetries ctx.now).1,
                   (handleSyncError st res z.1 (serverErrMsg p.error)
                      ctx.maxRetries ctx.now).2, z.2) := by
                unfold reconcileProcessed
                simp [hm, h1, h2]
              rw [hstep] at ih
              rw [hstep]
              simp only [hm, h1, h2]
              dsimp only at ih
              refine ⟨?_, ?_, ?_⟩
              · rw [ih.1]
                simp [handleSyncError_result]
              · rw [ih.2.1]
                simp only [handleSyncError_result, h1, h2]
                simp
                omega
              · rw [ih.2.2]
                simp [handleSyncError_result]

/-- One batch, fully accounted: counter deltas depend only on the batch
and its round-trip outcome, `success` is and-ed with the absence of a
batch-level failure, and on a thrown round trip every batch item gets
exactly one retry-policy error entry. -/
theorem runBatch_result (ctx : Ctx) (n1 : NetResp) (st : DbState) (res : SyncResult)
    (batch : List SyncQueueItem) :
    (runBatch ctx n1 st res batch).2.synced_items =
      res.synced_items + batchSyncedDelta batch n1 ∧
    (runBatch ctx n1 st res batch).2.failed_items =
      res.failed_items + batchFailedDelta batch n1 ctx.maxRetries ∧
    (runBatch ctx n1 st res batch).2.success =
      (res.success && !batchLevelFailure batch n1) ∧
    (∀ msg, n1 = .netThrow msg →
      (runBatch ctx n1 st res batch).2.errors =
        res.errors ++ batch.map (fun it =>
          retryErrorEntry it ("Batch processing failed: " ++ msg)
            ctx.maxRetries ctx.now)) := by
  cases n1 with
  | netThrow msg =>
      unfold runBatch processBatch
      dsimp only
      rw [foldl_processFailed_result ctx ("Batch processing failed: " ++ msg) batch _ _]
      refine ⟨rfl, rfl, by simp [batchLevelFailure], ?_⟩
      intro msg2 hmsg
      obtain rfl : msg = msg2 := by
        injection hmsg
      rfl
  | netReply processedOpt =>
      cases processedOpt with
      | none =>
          unfold runBatch processBatch
          dsimp only
          rw [foldl_processFailed_result ctx
            ("Batch processing failed: " ++ "Invalid batch response") batch _ _]
          refine ⟨rfl, rfl, by simp [batchLevelFailure], ?_⟩
          intro msg2 hmsg
          cases hmsg
      | some ps =>
          unfold runBatch processBatch
          dsimp only
          have hres := reconcile_foldl_result ctx ps
            (updateTaskSyncStatusBatch st (batch.map (fun it => it.task_id)) "in-progress")
            res batch
          have hleft := reconcile_foldl_leftover ctx ps
            (updateTaskSyncStatusBatch st (batch.map (fun it => it.task_id)) "in-progress")
            res batch
          by_cases hempty : consumeMatches batch ps = []
          · rw [if_pos (by rw [hleft]; exact hempty)]
            refine ⟨?_, ?_, ?_, ?_⟩
            · rw [hres.1]
              rfl
            · rw [hres.2.1]
              simp [batchFailedDelta, hempty, permFailCount]
            · rw [hres.2.2]
              simp [batchLevelFailure, hempty]
            · intro msg2 hmsg
              cases hmsg
          · rw [if_neg (by rw [hleft]; exact hempty)]
            rw [show ((ps.foldl (reconcileProcessed ctx)
                (updateTaskSyncStatusBatch st (batch.map (fun it => it.task_id))
                  "in-progress", res, batch)).2.2) = consumeMatches batch ps from hleft]
            rw [foldl_handle_result "No response item received" ctx.maxRetries ctx.now
              (consumeMatches batch ps) _ _]
            refine ⟨?_, ?_, ?_, ?_⟩
            · dsimp only
              rw [hres.1]
              rfl
            · dsimp only
              rw [hres.2.1]
              simp [batchFailedDelta, Nat.add_assoc]
            · simp [batchLevelFailure, hempty]
            · intro msg2 hmsg
              cases hmsg

/-- The whole batch loop, accounted: every batch contributes its
deltas independently of the outcomes of the other batches. -/
theorem runBatches_result (ctx : Ctx) (net : Nat → NetResp) :
    ∀ (batches : List (List SyncQueueItem)) (k : Nat) (st : DbState) (res : SyncResult),
      (runBatches ctx net k st res batches).2.synced_items =
        res.synced_items + batchesSyncedSum net k batches ∧
      (runBatches ctx net k st res batches).2.failed_items =
        res.failed_items + batchesFailedSum net ctx.maxRetries k batches ∧
      (runBatches ctx net k st res batches).2.success =
        (res.success && !anyBatchFailure net k batches)
  | [], k, st, res => by simp [runBatches, batchesSyncedSum, batchesFailedSum,
      anyBatchFailure]
  | b :: rest, k, st, res => by
      rw [runBatches]
      have hb := runBatch_result ctx (net k) st res b
      have ih := runBatches_result ctx net rest (k + 1)
        (runBatch ctx (net k) st res b).1 (runBatch ctx (net k) st res b).2
      rw [batchesSyncedSum, batchesFailedSum, anyBatchFailure]
      refine ⟨?_, ?_, ?_⟩
      · rw [ih.1, hb.1]
        omega
      · rw [ih.2.1, hb.2.1]
        omega
      · rw [ih.2.2, hb.2.2.1]
        cases res.success <;> cases batchLevelFailure b (net k) <;>
          cases anyBatchFailure net (k + 1) rest <;> rfl

theorem extractFirst_eq_none {α : Type} (p : α → Bool) :
    ∀ (l : List α), (∀ a ∈ l, p a = false) → extractFirst p l = none
  | [], _ => rfl
  | a :: as, h => by
      rw [extractFirst, if_neg (by simp [h a (List.mem_cons_self a as)]),
        extractFirst_eq_none p as (fun x hx => h x (List.mem_cons_of_mem a hx))]
      rfl

/-! ## C7 -/

/-- C7.  No batch outcome aborts the cycle: the run's counters are the
sums of per-batch contributions, each depending only on that batch and
its own round-trip outcome (so batches after a failed one still
contribute their successes); the final `success` is exactly «no
batch-level failure and `failed_items = 0`»; and on a thrown round trip
every item of that batch is handed to the retry policy, producing
exactly one error entry per item. -/
theorem c7_batch_isolation (ctx : Ctx) (parse : String → Option Payload)
    (net : Nat → NetResp) (st : DbState) :
    (sync ctx parse net st).2.synced_items =
      batchesSyncedSum net 0 (chunks ctx.batchSize
        ((loadQueue st.sync_queue).filterMap (mapRowToSyncQueueItem parse))) ∧
    (sync ctx parse net st).2.failed_items =
      batchesFailedSum net ctx.maxRetries 0 (chunks ctx.batchSize
        ((loadQueue st.sync_queue).filterMap (mapRowToSyncQueueItem parse))) ∧
    (sync ctx parse net st).2.success =
      (!anyBatchFailure net 0 (chunks ctx.batchSize
          ((loadQueue st.sync_queue).filterMap (mapRowToSyncQueueItem parse))) &&
        decide ((sync ctx parse net st).2.failed_items = 0)) ∧
    (∀ (msg : String) (st' : DbState) (res' : SyncResult) (b : List SyncQueueItem),
      (runBatch ctx (.netThrow msg) st' res' b).2.errors =
        res'.errors ++ b.map (fun it =>
          retryErrorEntry it ("Batch processing failed: " ++ msg)
            ctx.maxRetries ctx.now)) := by
  refine ?_
  have herrs : ∀ (msg : String) (st' : DbState) (res' : SyncResult)
      (b : List SyncQueueItem),
      (runBatch ctx (.netThrow msg) st' res' b).2.errors =
        res'.errors ++ b.map (fun it =>
          retryErrorEntry it ("Batch processing failed: " ++ msg)
            ctx.maxRetries ctx.now) :=
    fun msg st' res' b => (runBatch_result ctx (.netThrow msg) st' res' b).2.2.2 msg rfl
  unfold sync
  by_cases hrows : loadQueue st.sync_queue = []
  · rw [if_pos hrows, hrows]
    exact ⟨rfl, rfl, rfl, herrs⟩
  · rw [if_neg hrows]
    dsimp only
    by_cases hq : (loadQueue st.sync_queue).filterMap (mapRowToSyncQueueItem parse) = []
    · rw [if_pos hq, hq]
      exact ⟨rfl, rfl, rfl, herrs⟩
    · rw [if_neg hq]
      dsimp only
      have hrb := runBatches_result ctx net
        (chunks ctx.batchSize
          ((loadQueue st.sync_queue).filterMap (mapRowToSyncQueueItem parse)))
        0 st ⟨true, 0, 0, []⟩
      by_cases hf : 0 < (runBatches ctx net 0 st ⟨true, 0, 0, []⟩
          (chunks ctx.batchSize
            ((loadQueue st.sync_queue).filterMap (mapRowToSyncQueueItem parse)))).2.failed_items
      · rw [if_pos hf]
        refine ⟨?_, ?_, ?_, herrs⟩
        · dsimp only
          rw [hrb.1]
          simp
        · dsimp only
          rw [hrb.2.1]
          simp
        · have hne : ¬ (runBatches ctx net 0 st ⟨true, 0, 0, []⟩
              (chunks ctx.batchSize
                ((loadQueue st.sync_queue).filterMap
                  (mapRowToSyncQueueItem parse)))).2.failed_items = 0 := by omega
          simp [hne]
      · rw [if_neg hf]
        refine ⟨?_, ?_, ?_, herrs⟩
        · rw [hrb.1]
          simp
        · rw [hrb.2.1]
          simp
        · have hz : (runBatches ctx net 0 st ⟨true, 0, 0, []⟩
              (chunks ctx.batchSize
                ((loadQueue st.sync_queue).filterMap
                  (mapRowToSyncQueueItem parse)))).2.failed_items = 0 := by omega
          rw [hrb.2.2]
          simp [hz]

/-- C7, witness: the theorem applied to the fixture state with an
offline network; the per-batch error conjunct instantiated on the
fixture batch. -/
theorem c7_witness :
    (runBatch fixCtx (.netThrow "Network error") fixDb ⟨true, 0, 0, []⟩
        [fixItem 0]).2.errors =
      ([] : List SyncError) ++ [fixItem 0].map (fun it =>
        retryErrorEntry it ("Batch processing failed: " ++ "Network error") 3 0) :=
  (c7_batch_isolation fixCtx parseEmptyObj netDown fixDb).2.2.2
    "Network error" fixDb ⟨true, 0, 0, []⟩ [fixItem 0]

/-! ## C9 -/

/-- C9.  Matching a structured response against a batch: a batch item
matched by no `processed_items` entry survives the matching loop into
the leftover set (which is exactly `consumeMatches`, a sub-list of the
batch) and, when the leftover set is non-empty, each of its items is
handed to the retry policy with cause `No response item received`,
appending exactly one error entry per unanswered item; and a response
entry whose `client_id` matches no still-unconsumed local item leaves
state, result and working set exactly unchanged. -/
theorem c9_unmatched_handling (ctx : Ctx) (st : DbState) (res : SyncResult)
    (batch : List SyncQueueItem) (ps : List ProcessedItem) :
    (∀ it ∈ batch, (∀ p ∈ ps, ¬ it.task_id = p.client_id) →
      it ∈ consumeMatches batch ps) ∧
    (ps.foldl (reconcileProcessed ctx) (st, res, batch)).2.2 =
      consumeMatches batch ps ∧
    (consumeMatches batch ps).Sublist batch ∧
    (¬ consumeMatches batch ps = [] →
      (runBatch ctx (.netReply (some ps)) st res batch).2.errors =
        (ps.foldl (reconcileProcessed ctx)
            (updateTaskSyncStatusBatch st (batch.map (fun it => it.task_id))
              "in-progress", res, batch)).2.1.errors ++
          (consumeMatches batch ps).map (fun it =>
            retryErrorEntry it "No response item received" ctx.maxRetries ctx.now)) ∧
    (∀ (p : ProcessedItem) (acc : DbState × SyncResult × List SyncQueueItem),
      (∀ it ∈ acc.2.2, ¬ it.task_id = p.client_id) →
      reconcileProcessed ctx acc p = acc) := by
  refine ⟨fun it hit hno => mem_consumeMatches_of_no_match ps batch it hit hno,
    reconcile_foldl_leftover ctx ps st res batch,
    consumeMatches_sublist batch ps, ?_, ?_⟩
  · intro hne
    unfold runBatch processBatch
    dsimp only
    have hleft := reconcile_foldl_leftover ctx ps
      (updateTaskSyncStatusBatch st (batch.map (fun it => it.task_id)) "in-progress")
      res batch
    rw [if_neg (by rw [hleft]; exact hne), hleft,
      foldl_handle_result "No response item received" ctx.maxRetries ctx.now
        (consumeMatches batch ps) _ _]
  · intro p acc hno
    obtain ⟨a, b, c⟩ := acc
    unfold reconcileProcessed
    dsimp only
    rw [extractFirst_eq_none _ c (fun it hit => by simp [hno it hit])]

/-- C9, witness: a response for an unknown `client_id` leaves
everything unchanged, and the fixture item, unmatched, is a leftover. -/
theorem c9_witness :
    (fixItem 0) ∈ consumeMatches [fixItem 0]
      [⟨"ghost", none, "success", none, none⟩] ∧
    reconcileProcessed fixCtx (fixDb, ⟨true, 0, 0, []⟩, [fixItem 0])
        ⟨"ghost", none, "success", none, none⟩ =
      (fixDb, ⟨true, 0, 0, []⟩, [fixItem 0]) :=
  ⟨(c9_unmatched_handling fixCtx fixDb ⟨true, 0, 0, []⟩ [fixItem 0]
      [⟨"ghost", none, "success", none, none⟩]).1 (fixItem 0) (by decide)
      (by decide),
   (c9_unmatched_handling fixCtx fixDb ⟨true, 0, 0, []⟩ [fixItem 0]
      [⟨"ghost", none, "success", none, none⟩]).2.2.2.2
      ⟨"ghost", none, "success", none, none⟩
      (fixDb, ⟨true, 0, 0, []⟩, [fixItem 0]) (by decide)⟩

/-! ## C8: ordering lemmas -/

theorem lexLe_refl : ∀ (x : List Nat), lexLe x x = true
  | [] => rfl
  | a :: as => by
      rw [lexLe]
      simp only [Nat.lt_irrefl, if_false]
      exact lexLe_refl as

theorem lexLe_total : ∀ (x y : List Nat), lexLe x y = true ∨ lexLe y x = true
  | [], _ => Or.inl rfl
  | _ :: _, [] => Or.inr rfl
  | a :: as, b :: bs => by
      rcases Nat.lt_trichotomy a b with h | rfl | h
      · left
        rw [lexLe, if_pos h]
      · rcases lexLe_total as bs with hl | hl
        · left
          rw [lexLe]
          simp only [Nat.lt_irrefl, if_false]
          exact hl
        · right
          rw [lexLe]
          simp only [Nat.lt_irrefl, if_false]
          exact hl
      · right
        rw [lexLe, if_pos h]

theorem lexLe_trans :
    ∀ (x y z : List Nat), lexLe x y = true → lexLe y z = true → lexLe x z = true
  | [], _, _, _, _ => rfl
  | _ :: _, [], _, hxy, _ => by simp [lexLe] at hxy
  | _ :: _, _ :: _, [], _, hyz => by simp [lexLe] at hyz
  | a :: as, b :: bs, c :: cs, hxy, hyz => by
      rw [lexLe] at hxy hyz ⊢
      by_cases hab : a < b
      · by_cases hbc : b < c
        · rw [if_pos (Nat.lt_trans hab hbc)]
        · rw [if_neg hbc] at hyz
          by_cases hcb : c < b
          · rw [if_pos hcb] at hyz
            cases hyz
          · have hbc2 : b = c := by omega
            subst hbc2
            rw [if_pos hab]
      · rw [if_neg hab] at hxy
        by_cases hba : b < a
        · rw [if_pos hba] at hxy
          cases hxy
        · rw [if_neg hba] at hxy
          have hab2 : a = b := by omega
          subst hab2
          by_cases hbc : a < c
          · rw [if_pos hbc]
          · rw [if_neg hbc] at hyz ⊢
            by_cases hcb : c < a
            · rw [if_pos hcb] at hyz
              cases hyz
            · rw [if_neg hcb] at hyz ⊢
              exact lexLe_trans as bs cs hxy hyz

instance : IsTotal SyncQueueDbItem queueLe := ⟨fun x y => lexLe_total (x.created_at.data.map Char.toNat) (y.created_at.data.map Char.toNat)⟩

instance : IsTrans SyncQueueDbItem queueLe := ⟨fun _ _ _ h1 h2 => lexLe_trans _ _ _ h1 h2⟩

theorem loadQueue_sorted (q : List SyncQueueDbItem) : (loadQueue q).Sorted queueLe :=
  List.sorted_insertionSort queueLe q

theorem mapRow_some_fields (parse : String → Option Payload) (row : SyncQueueDbItem)
    (item : SyncQueueItem) (h : mapRowToSyncQueueItem parse row = some item) :
    item.created_at = row.created_at ∧ item.id = row.id ∧ ¬ item.id = "" := by
  unfold mapRowToSyncQueueItem at h
  by_cases hc : row.id = "" ∨ row.task_id = "" ∨ row.operation = "" ∨ row.data = "" ∨
      row.created_at = ""
  · rw [if_pos hc] at h
    cases h
  · rw [if_neg hc] at h
    cases hp : parse row.data with
    | none => rw [hp] at h; cases h
    | some d =>
        rw [hp] at h
        obtain rfl := (Option.some_inj.mp h).symm
        exact ⟨rfl, rfl, fun hid => hc (Or.inl hid)⟩

theorem pairwise_filterMap_mono {α β : Type} {R : α → α → Prop} {S : β → β → Prop}
    (f : α → Option β)
    (hf : ∀ a b a' b', f a = some a' → f b = some b' → R a b → S a' b') :
    ∀ (l : List α), l.Pairwise R → (l.filterMap f).Pairwise S
  | [], _ => by simp
  | a :: l, h => by
      rcases List.pairwise_cons.mp h with ⟨hhead, htail⟩
      cases hfa : f a with
      | none =>
          rw [List.filterMap_cons_none hfa]
          exact pairwise_filterMap_mono f hf l htail
      | some a' =>
          rw [List.filterMap_cons_some hfa, List.pairwise_cons]
          refine ⟨?_, pairwise_filterMap_mono f hf l htail⟩
          intro b' hb'
          obtain ⟨b, hb, hfb⟩ := List.mem_filterMap.mp hb'
          exact hf a b a' b' hfa hfb (hhead b hb)

theorem pairwise_itemLe_key_index {l : List SyncQueueItem} (h : l.Pairwise itemLe)
    (i j : Nat) (hi : i < l.length) (hj : j < l.length)
    (hlt : strLtB (l.get ⟨i, hi⟩).created_at (l.get ⟨j, hj⟩).created_at) : i < j := by
  by_contra hij
  rcases Nat.lt_or_ge j i with hji | hji
  · have hle : itemLe (l.get ⟨j, hj⟩) (l.get ⟨i, hi⟩) :=
      List.pairwise_iff_get.mp h ⟨j, hj⟩ ⟨i, hi⟩ hji
    rw [itemLe] at hle
    rw [strLtB, hle] at hlt
    cases hlt
  · have hij2 : i = j := le_antisymm hji (not_lt.mp hij)
    subst hij2
    rw [strLtB, strLeB, lexLe_refl] at hlt
    cases hlt

theorem generateChecksum_eq (items : List SyncQueueItem) (h : items ≠ [])
    (hid : ∀ it ∈ items, ¬ it.id = "") :
    generateChecksum items =
      toString items.length ++ "-" ++ (items.head h).id ++ "-" ++
        (items.getLast h).id ++ "-" ++
        toString (checksumHash ("[" ++ String.intercalate ","
          (items.map checksumEntryString) ++ "]")) := by
  unfold generateChecksum
  rw [if_neg (by simp [h])]
  rw [List.head?_eq_head h, List.getLast?_eq_getLast _ h]
  have h1 := hid _ (List.head_mem h)
  have h2 := hid _ (List.getLast_mem h)
  simp [h1, h2, jsOrStr]

/-! ## C8 -/

/-- C8.  The dispatch order: the loaded queue is sorted by `created_at`
ascending, and so is the parsed working set; concatenating the batches
in order reproduces the working set exactly (order preserved within and
across batch boundaries); strictly older entries sit at strictly
smaller indices, globally and inside every batch (each batch being a
contiguous sorted slice); and each batch's checksum carries the batch's
first element's id as its first-id component and its last element's id
as the last-id component — so an entry created before another can
appear as the first id but never after it. -/
theorem c8_ordering (rows : List SyncQueueDbItem) (parse : String → Option Payload)
    (bs : Nat) :
    (loadQueue rows).Sorted queueLe ∧
    ((loadQueue rows).filterMap (mapRowToSyncQueueItem parse)).Sorted itemLe ∧
    (chunks bs ((loadQueue rows).filterMap (mapRowToSyncQueueItem parse))).flatten =
      (loadQueue rows).filterMap (mapRowToSyncQueueItem parse) ∧
    (∀ (i j : Nat)
      (hi : i < ((loadQueue rows).filterMap (mapRowToSyncQueueItem parse)).length)
      (hj : j < ((loadQueue rows).filterMap (mapRowToSyncQueueItem parse)).length),
      strLtB (((loadQueue rows).filterMap (mapRowToSyncQueueItem parse)).get
          ⟨i, hi⟩).created_at
        (((loadQueue rows).filterMap (mapRowToSyncQueueItem parse)).get
          ⟨j, hj⟩).created_at → i < j) ∧
    ∀ b ∈ chunks bs ((loadQueue rows).filterMap (mapRowToSyncQueueItem parse)),
      b.Sorted itemLe ∧
      (∀ (p q : Nat) (hp : p < b.length) (hq : q < b.length),
        strLtB (b.get ⟨p, hp⟩).created_at (b.get ⟨q, hq⟩).created_at → p < q) ∧
      ∀ h : b ≠ [], generateChecksum b =
        toString b.length ++ "-" ++ (b.head h).id ++ "-" ++ (b.getLast h).id ++ "-" ++
          toString (checksumHash ("[" ++ String.intercalate ","
            (b.map checksumEntryString) ++ "]")) := by
  have hsorted : (loadQueue rows).Sorted queueLe := loadQueue_sorted rows
  have hitems : ((loadQueue rows).filterMap (mapRowToSyncQueueItem parse)).Sorted
      itemLe := by
    refine pairwise_filterMap_mono (mapRowToSyncQueueItem parse) ?_ _ hsorted
    intro a b a' b' ha hb hab
    have ha' := mapRow_some_fields parse a a' ha
    have hb' := mapRow_some_fields parse b b' hb
    show strLeB a'.created_at b'.created_at = true
    rw [ha'.1, hb'.1]
    exact hab
  refine ⟨hsorted, hitems, chunks_flatten _ _,
    fun i j hi hj => pairwise_itemLe_key_index hitems i j hi hj, ?_⟩
  intro b hb
  have hbsorted : b.Sorted itemLe :=
    hitems.sublist (mem_chunks_slice _ _ b hb).sublist
  refine ⟨hbsorted, fun p q hp hq => pairwise_itemLe_key_index hbsorted p q hp hq, ?_⟩
  intro hne
  refine generateChecksum_eq b hne ?_
  intro it hit
  obtain ⟨row, _, hmap⟩ := List.mem_filterMap.mp
    (mem_of_mem_chunks _ _ b it hb hit)
  exact (mapRow_some_fields parse row it hmap).2.2

/-- C8, witness: on a two-row queue the strictly older entry gets the
strictly smaller index, and a singleton batch's checksum carries its
element's id as first and last component. -/
theorem c8_witness :
    (0 : Nat) < 1 ∧
    generateChecksum [fixItem 0] =
      toString ([fixItem 0] : List SyncQueueItem).length ++ "-" ++ (fixItem 0).id ++
        "-" ++ (fixItem 0).id ++ "-" ++
        toString (checksumHash ("[" ++ String.intercalate ","
          ([fixItem 0].map checksumEntryString) ++ "]")) :=
  ⟨(c8_ordering [fixRow2, fixRow] parseEmptyObj 2).2.2.2.1 0 1 (by decide) (by decide)
     (by decide),
   ((c8_ordering [fixRow] parseEmptyObj 1).2.2.2.2 [fixItem 0] (by decide)).2.2
     (by decide)⟩

/-! ## C6 -/

/-- C6, amended.  Only the keys the source checks —
`{title, description, completed, is_deleted, updated_at, server_id}`
*plus `id`* — can influence a resolved-data reconciliation: filtering a
payload to those keys changes nothing; every emitted clause targets one
of the eight fixed columns and there is never an `id = ?` clause (the
`id` key is never written as a column itself, but it can supply the
`server_id` value, which is what forces `id` into the influencing set);
and `updated_at` is always written — with the resolved value when that
value is truthy, with the current time otherwise. -/
theorem c6_resolved_allowlist (st : DbState) (qid tid : String) (sid : Option String)
    (rd : Payload) (now : Int) :
    updateSyncStatus st qid tid "synced" sid
        (some (rd.filter (fun kv => kv.1 ∈ allowedResolvedKeys))) now =
      updateSyncStatus st qid tid "synced" sid (some rd) now ∧
    (∀ c ∈ updateSyncStatusClauses "synced" sid (some rd) now,
      c.1 ∈ allowedClauseNames ∧ c.1 ≠ "id = ?") ∧
    ∀ r : TaskRow,
      ((updateSyncStatusClauses "synced" sid (some rd) now).foldl applyClause
          r).updated_at = .str (forcedUpdatedAt rd now) := by
  refine ⟨?_, updateSyncStatusClauses_names rd sid now, foldl_synced_updated_at rd sid now⟩
  unfold updateSyncStatus
  rw [updateSyncStatusClauses_synced_some, updateSyncStatusClauses_synced_some,
    buildUpdates_filter_invariant]

/-- C6, counterexample.  The claim's allow-list omits `id`, yet a
payload containing only an `id` key changes the outcome: with no
explicit `serverId`, the `id` value is written to the `server_id`
column, so a key outside the claimed six influences a written value. -/
theorem c6_counterexample :
    ((updateSyncStatus fixDb "q1" "t1" "synced" none (some [("id", .str "X")]) 0).tasks.map
      (fun r => r.server_id) = [.str "X"]) ∧
    updateSyncStatus fixDb "q1" "t1" "synced" none
        (some (([("id", .str "X")] : Payload).filter
          (fun kv => kv.1 ∈ (["title", "description", "completed", "is_deleted",
            "updated_at", "server_id"] : List String)))) 0 ≠
      updateSyncStatus fixDb "q1" "t1" "synced" none (some [("id", .str "X")]) 0 := by
  exact ⟨by decide, by decide⟩

/-! ## C3 -/

/-- C3, counterexample.  A queue whose only entry has an
un-deserializable payload: the cycle neither crashes nor reports — it
returns `success = true` with empty `errors` and no state change, so no
data-integrity error is surfaced in the `SyncResult`. -/
theorem c3_counterexample :
    parseEmptyObj fixRowBad.data = none ∧
    sync fixCtx parseEmptyObj netDown ⟨[fixTask], [fixRowBad]⟩ =
      (⟨[fixTask], [fixRowBad]⟩, ⟨true, 0, 0, []⟩) := by
  exact ⟨rfl, by decide⟩

/-- C3, amended.  An entry whose payload fails to deserialize is
dropped from the working set — every item of every dispatched batch
stems from a row whose payload parsed — and the cycle does not crash;
but no data-integrity error is surfaced: when every entry fails to
parse the run returns `success = true` with empty `errors` and an
unchanged state (and a dropped entry is never mentioned in the result
otherwise either). -/
theorem c3_amended (ctx : Ctx) (parse : String → Option Payload) (net : Nat → NetResp)
    (st : DbState) :
    (∀ b ∈ chunks ctx.batchSize
        ((loadQueue st.sync_queue).filterMap (mapRowToSyncQueueItem parse)),
      ∀ item ∈ b, ∃ row ∈ st.sync_queue, mapRowToSyncQueueItem parse row = some item) ∧
    ((∀ row ∈ st.sync_queue, mapRowToSyncQueueItem parse row = none) →
      sync ctx parse net st = (st, ⟨true, 0, 0, []⟩)) := by
  constructor
  · intro b hb item hitem
    have hj : item ∈ (loadQueue st.sync_queue).filterMap (mapRowToSyncQueueItem parse) :=
      mem_of_mem_chunks _ _ b item hb hitem
    obtain ⟨row, hrow, hmap⟩ := List.mem_filterMap.mp hj
    exact ⟨row, by rwa [loadQueue, List.mem_insertionSort] at hrow, hmap⟩
  · intro hall
    unfold sync
    by_cases hrows : loadQueue st.sync_queue = []
    · rw [if_pos hrows]
    · rw [if_neg hrows]
      dsimp only
      have hfm : (loadQueue st.sync_queue).filterMap (mapRowToSyncQueueItem parse) = [] := by
        rw [List.filterMap_eq_nil_iff]
        intro row hrow
        exact hall row (by rwa [loadQueue, List.mem_insertionSort] at hrow)
      rw [hfm]
      rfl

/-- C3, witness: the amended theorem applied to a mixed queue (every
batch item stems from a parsed row) and to the all-unparseable fixture
queue. -/
theorem c3_witness :
    (∃ row ∈ (⟨[fixTask], [fixRow, fixRowBad]⟩ : DbState).sync_queue,
      mapRowToSyncQueueItem parseEmptyObj row = some (fixItem 0)) ∧
    sync fixCtx parseEmptyObj netDown ⟨[fixTask], [fixRowBad]⟩ =
      (⟨[fixTask], [fixRowBad]⟩, ⟨true, 0, 0, []⟩) :=
  ⟨(c3_amended fixCtx parseEmptyObj netDown ⟨[fixTask], [fixRow, fixRowBad]⟩).1
      [fixItem 0] (by decide) (fixItem 0) (by decide),
   (c3_amended fixCtx parseEmptyObj netDown ⟨[fixTask], [fixRowBad]⟩).2 (by decide)⟩

/-! ## C2 -/

/-- C2.  With `max_retries = 3`: after three consecutive failing cycles
the entry has `retry_count = 3` and the record `sync_status = error`;
the fourth consecutive failure turns the record `failed`, removes the
entry from every later cycle (the following sync is an empty no-op),
and increments `failed_items` exactly once — and in general the retry
policy adds `1` to `failed_items` exactly when the incremented retry
count exceeds `max_retries`, and `0` otherwise. -/
theorem c2_bounded_retries :
    ((c2s3.1.sync_queue.map (fun q => q.retry_count) = [3] ∧
      c2s3.1.tasks.map (fun r => r.sync_status) = [.str "error"]) ∧
     (c2s4.1.tasks.map (fun r => r.sync_status) = [.str "failed"] ∧
      c2s4.1.sync_queue = [] ∧
      c2s4.2.failed_items = 1 ∧
      failCycle c2s4.1 = (c2s4.1, ⟨true, 0, 0, []⟩))) ∧
    (∀ (st : DbState) (res : SyncResult) (item : SyncQueueItem) (msg : String)
        (mr : Nat) (now : Int),
      (handleSyncError st res item msg mr now).2.failed_items =
        res.failed_items + (if mr < item.retry_count + 1 then 1 else 0)) := by
  constructor
  · set_option maxRecDepth 100000 in decide
  · intro st res item msg mr now
    by_cases h : mr < item.retry_count + 1
    · rw [handleSyncError_perm st res item msg mr now h, if_pos h]
    · rw [handleSyncError_temp st res item msg mr now (by omega), if_neg h]
      simp

/-! ## C4 -/

/-- C4.  For a matched item with a `conflict` outcome, the storage
effect (tasks table and sync queue) and the remaining working set are
identical to a `success` outcome with the same `server_id` and
`resolved_data`; `synced_items` is incremented, exactly one
conflict-advisory entry is appended to `errors`, and neither `success`
nor `failed_items` is touched by the conflict. -/
theorem c4_conflict_equiv_success (ctx : Ctx) (st : DbState) (res : SyncResult)
    (lb : List SyncQueueItem) (p : ProcessedItem) (it : SyncQueueItem)
    (rest : List SyncQueueItem) (hconf : p.status = "conflict")
    (hm : extractFirst (fun item => item.task_id = p.client_id) lb = some (it, rest)) :
    (reconcileProcessed ctx (st, res, lb) p).1 =
      (reconcileProcessed ctx (st, res, lb) { p with status := "success" }).1 ∧
    (reconcileProcessed ctx (st, res, lb) p).2.2 =
      (reconcileProcessed ctx (st, res, lb) { p with status := "success" }).2.2 ∧
    (reconcileProcessed ctx (st, res, lb) p).2.1.synced_items = res.synced_items + 1 ∧
    (reconcileProcessed ctx (st, res, lb) p).2.1.errors =
      res.errors ++ [⟨it.task_id, it.operation, "Conflict resolved (LWW)", ctx.now⟩] ∧
    (reconcileProcessed ctx (st, res, lb) p).2.1.success = res.success ∧
    (reconcileProcessed ctx (st, res, lb) p).2.1.failed_items = res.failed_items := by
  unfold reconcileProcessed
  simp only [hm, hconf]
  simp

/-- C4, witness: the theorem applied to the fixture batch and a
concrete conflict outcome. -/
theorem c4_witness :
    (⟨"t1", some "srv-1", "conflict", none, none⟩ : ProcessedItem).status = "conflict" ∧
    extractFirst (fun item => item.task_id =
        (⟨"t1", some "srv-1", "conflict", none, none⟩ : ProcessedItem).client_id)
        [fixItem 0] = some (fixItem 0, []) ∧
    (reconcileProcessed fixCtx (fixDb, ⟨true, 0, 0, []⟩, [fixItem 0])
        ⟨"t1", some "srv-1", "conflict", none, none⟩).2.1.synced_items = 0 + 1 :=
  ⟨rfl, by decide,
   (c4_conflict_equiv_success fixCtx fixDb ⟨true, 0, 0, []⟩ [fixItem 0]
      ⟨"t1", some "srv-1", "conflict", none, none⟩ (fixItem 0) [] rfl
      (by decide)).2.2.1⟩

/-! ## C5 -/

/-- C5.  Reconciling a matched outbox entry with a `success` outcome
carrying `server_id = "srv-1"`: the record is updated to
`sync_status = synced`, `server_id = "srv-1"`, with `last_synced_at`
stamped with the run's clock (a string value, never `null`), the
outbox entry is deleted from `sync_queue`, and `synced_items` is
incremented by one — whatever resolved payload the outcome carries. -/
theorem c5_success_reconciliation (ctx : Ctx) (st : DbState) (res : SyncResult)
    (lb : List SyncQueueItem) (p : ProcessedItem) (it : SyncQueueItem)
    (rest : List SyncQueueItem)
    (hm : extractFirst (fun item => item.task_id = p.client_id) lb = some (it, rest))
    (hst : p.status = "success") (hsid : p.server_id = some "srv-1") :
    reconcileProcessed ctx (st, res, lb) p =
      (updateSyncStatus st it.id it.task_id "synced" p.server_id p.resolved_data ctx.now,
       { res with synced_items := res.synced_items + 1 }, rest) ∧
    (reconcileProcessed ctx (st, res, lb) p).1.sync_queue =
      st.sync_queue.filter (fun q => q.id ≠ it.id) ∧
    (∀ q ∈ (reconcileProcessed ctx (st, res, lb) p).1.sync_queue, q.id ≠ it.id) ∧
    (reconcileProcessed ctx (st, res, lb) p).1.tasks =
      st.tasks.map (fun r =>
        if r.id = it.task_id then
          (updateSyncStatusClauses "synced" p.server_id p.resolved_data ctx.now).foldl
            applyClause r
        else r) ∧
    ∀ r : TaskRow,
      ((updateSyncStatusClauses "synced" p.server_id p.resolved_data ctx.now).foldl
          applyClause r).sync_status = .str "synced" ∧
      ((updateSyncStatusClauses "synced" p.server_id p.resolved_data ctx.now).foldl
          applyClause r).server_id = .str "srv-1" ∧
      ((updateSyncStatusClauses "synced" p.server_id p.resolved_data ctx.now).foldl
          applyClause r).last_synced_at = .str (dateToIso (.date ctx.now)) := by
  have h1 : reconcileProcessed ctx (st, res, lb) p =
      (updateSyncStatus st it.id it.task_id "synced" p.server_id p.resolved_data ctx.now,
       { res with synced_items := res.synced_items + 1 }, rest) := by
    unfold reconcileProcessed
    simp only [hm, hst]
    simp
  refine ⟨h1, ?_, ?_, ?_, ?_⟩
  · rw [h1]
    rfl
  · rw [h1]
    intro q hq
    have hq2 := List.of_mem_filter hq
    simpa using hq2
  · rw [h1]
    rfl
  · intro r
    rw [hsid]
    exact ⟨foldl_synced_sync_status p.resolved_data "srv-1" ctx.now r (by decide),
      foldl_synced_server_id p.resolved_data "srv-1" ctx.now r (by decide),
      foldl_synced_last_synced_at p.resolved_data "srv-1" ctx.now r (by decide)⟩

/-- C5, witness: the theorem applied to the fixture batch, a concrete
success outcome, and a resolved payload. -/
theorem c5_witness :
    extractFirst (fun item => item.task_id =
        (⟨"t1", some "srv-1", "success", some [("title", .str "T")], none⟩ :
          ProcessedItem).client_id) [fixItem 0] = some (fixItem 0, []) ∧
    (reconcileProcessed fixCtx (fixDb, ⟨true, 0, 0, []⟩, [fixItem 0])
        ⟨"t1", some "srv-1", "success", some [("title", .str "T")], none⟩).1.sync_queue =
      fixDb.sync_queue.filter (fun q => q.id ≠ (fixItem 0).id) :=
  ⟨by decide,
   ((c5_success_reconciliation fixCtx fixDb ⟨true, 0, 0, []⟩ [fixItem 0]
      ⟨"t1", some "srv-1", "success", some [("title", .str "T")], none⟩ (fixItem 0) []
      (by decide) rfl rfl).2.1)⟩

/-! ## C1 -/

/-- C1, counterexample.  The claim says a permanently failed outbox
entry remains in `sync_queue`; on the code, exhausting the retry budget
(`retry_count` 3 with `max_retries` 3) marks the record `failed` but
deletes the entry: `updateSyncStatus` runs its `DELETE FROM sync_queue`
unconditionally, for `'failed'` just as for `'synced'`. -/
theorem c1_counterexample :
    ((handleSyncError fixDb ⟨true, 0, 0, []⟩ (fixItem 3) "boom" 3 0).1.tasks.map
        (fun r => r.sync_status) = [.str "failed"]) ∧
    (handleSyncError fixDb ⟨true, 0, 0, []⟩ (fixItem 3) "boom" 3 0).1.sync_queue = [] :=
  ⟨rfl, rfl⟩

/-- C1, amended.  When a failure exhausts the retry budget the
permanent-failure handling sets the record's `sync_status` to `failed`
and (unlike the claim) also deletes the outbox entry — permanent
failure shares the deletion with success and conflict reconciliation;
only the temporary-failure path leaves the entry in the table. -/
theorem c1_amended (st : DbState) (res : SyncResult) (item : SyncQueueItem)
    (msg : String) (mr : Nat) (now : Int) :
    (mr < item.retry_count + 1 →
      (handleSyncError st res item msg mr now).1.tasks =
        st.tasks.map (fun r =>
          if r.id = item.task_id then { r with sync_status := .str "failed" } else r) ∧
      (handleSyncError st res item msg mr now).1.sync_queue =
        st.sync_queue.filter (fun q => q.id ≠ item.id)) ∧
    (item.retry_count + 1 ≤ mr →
      (handleSyncError st res item msg mr now).1.sync_queue.map (fun q => q.id) =
        st.sync_queue.map (fun q => q.id)) := by
  constructor
  · intro h
    rw [handleSyncError_perm st res item msg mr now h]
    exact ⟨rfl, rfl⟩
  · intro h
    rw [handleSyncError_temp st res item msg mr now h]
    by_cases hc :
        ((st.tasks.find? (fun r => r.id = item.task_id)).map
          (fun r => r.sync_status)) ≠ some (.str "failed")
    · rw [if_pos hc]
      dsimp only
      rw [updateTaskSyncStatusBatch_sync_queue, List.map_map]
      apply List.map_congr_left
      intro q _
      by_cases hq : q.id = item.id <;> simp [hq]
    · rw [if_neg hc]
      dsimp only
      rw [List.map_map]
      apply List.map_congr_left
      intro q _
      by_cases hq : q.id = item.id <;> simp [hq]

/-- C1, witness: the amended theorem applied at the fixture database,
once on the exhausted-budget side and once on the retry side. -/
theorem c1_witness :
    ((handleSyncError fixDb ⟨true, 0, 0, []⟩ (fixItem 3) "x" 3 0).1.sync_queue =
      fixDb.sync_queue.filter (fun q => q.id ≠ (fixItem 3).id)) ∧
    ((handleSyncError fixDb ⟨true, 0, 0, []⟩ (fixItem 0) "x" 3 0).1.sync_queue.map
        (fun q => q.id) = fixDb.sync_queue.map (fun q => q.id)) :=
  ⟨((c1_amended fixDb ⟨true, 0, 0, []⟩ (fixItem 3) "x" 3 0).1 (by decide)).2,
   (c1_amended fixDb ⟨true, 0, 0, []⟩ (fixItem 0) "x" 3 0).2 (by decide)⟩

/-! ## C10 -/

/-- C10.  On a temporary (non-permanent) failure the retry policy first
reads the record's current status; a record already `failed` is left
untouched (never demoted to `error`), and the `error` write happens
only for records not already quarantined. -/
theorem c10_no_demotion_of_failed (st : DbState) (res : SyncResult)
    (item : SyncQueueItem) (msg : String) (mr : Nat) (now : Int)
    (h : item.retry_count + 1 ≤ mr) :
    ((st.tasks.find? (fun r => r.id = item.task_id)).map (fun r => r.sync_status) =
        some (.str "failed") →
      (handleSyncError st res item msg mr now).1.tasks = st.tasks) ∧
    ((st.tasks.find? (fun r => r.id = item.task_id)).map (fun r => r.sync_status) ≠
        some (.str "failed") →
      (handleSyncError st res item msg mr now).1.tasks =
        st.tasks.map (fun r =>
          if r.id = item.task_id then { r with sync_status := .str "error" } else r)) := by
  rw [handleSyncError_temp st res item msg mr now h]
  constructor
  · intro hf
    simp [hf]
  · intro hf
    simp [hf, updateTaskSyncStatusBatch_single]

/-- C10, witness: a record already `failed` stays `failed` through a
temporary failure. -/
theorem c10_witness :
    ((fixDbFailed.tasks.find? (fun r => r.id = (fixItem 0).task_id)).map
        (fun r => r.sync_status) = some (.str "failed")) ∧
    (fixItem 0).retry_count + 1 ≤ 3 ∧
    (handleSyncError fixDbFailed ⟨true, 0, 0, []⟩ (fixItem 0) "x" 3 0).1.tasks =
      fixDbFailed.tasks :=
  ⟨by decide, by decide,
   (c10_no_demotion_of_failed fixDbFailed ⟨true, 0, 0, []⟩ (fixItem 0) "x" 3 0
      (by decide)).1 (by decide)⟩

end SyncSpec
